import Mathlib

/-!
Verification of the EIBS pool accounting and loan-authorization engine.

The definitions below are a shallow embedding of the Solidity contracts
`InvoiceLiquidityPool` (vault: ERC-4626 style share accounting, loan funding
and repayment) and `InvoiceNFT` (per-invoice token with the
fingerprint-to-token double-financing guard).  Monetary quantities are
`uint256` in the source; they are modelled as `Nat`.  Solidity 0.8 checked
arithmetic reverts on underflow and on division by zero: every place where
the source's control flow can hit such a trap is modelled by an explicit
`Err.Panic` branch.  A revert in the EVM rolls back every state change of
the call, so operations return `Except Err ...`: an `error` result carries
no state, and the caller keeps the pre-call state (see `txFundLoan`).

Cryptography (`keccak256` + `ecrecover`) is abstracted as a pluggable
`recover` function on the exact signed field tuple, and the `IdentitySBT`
KYB gate as a boolean predicate, both carried in `Config`.
-/

namespace EIBS

/-- Addresses are modelled as naturals; `0` is `address(0)`. -/
abbrev Address := Nat

/-- `bytes32` values (document hashes, nonces) modelled as naturals; `0` is the zero word. -/
abbrev B32 := Nat

/-- `type(uint256).max`, the sentinel for an unlimited share allowance. -/
def UINT256MAX : Nat := 2 ^ 256 - 1

/-- Error taxonomy: the custom errors of `InvoiceLiquidityPool` and
`InvoiceNFT`, plus `RequireViolation` for string-message `require` failures,
`InsufficientShares` for an ERC20 burn of more shares than held,
`TransferFailed` for a failing asset transfer out of the pool, and `Panic`
for Solidity 0.8 checked-arithmetic reverts (underflow, division by zero). -/
inductive Err where
  | Unauthorized
  | ZeroAddress
  | ZeroAmount
  | InvalidSignature
  | NonceAlreadyUsed
  | ExceedsMaxUtilization
  | InsufficientLiquidity
  | LoanNotActive
  | LoanAlreadyExists
  | InvoiceExpired
  | NotVerifiedBusiness
  | InvalidDueDate
  | InvalidRiskScore
  | DocumentAlreadyFinanced
  | TokenDoesNotExist
  | AlreadyRepaid
  | EmptyMetadataURI
  | RequireViolation
  | InsufficientShares
  | TransferFailed
  | Panic
deriving DecidableEq, Repr

/-- `InvoiceNFT.InvoiceData`: per-token invoice record. -/
structure InvoiceData where
  documentHash : B32
  publicMetadataURI : String
  amount : Nat
  dueDate : Nat
  seller : Address
  riskScore : Nat
  isRepaid : Bool
  fundedAt : Nat
deriving DecidableEq, Repr

/-- The all-zero `InvoiceData`, the default value of a Solidity mapping slot. -/
def InvoiceData.empty : InvoiceData :=
  { documentHash := 0, publicMetadataURI := "", amount := 0, dueDate := 0
    seller := 0, riskScore := 0, isRepaid := false, fundedAt := 0 }

/-- Storage of the `InvoiceNFT` contract (the fields the pool engine reads
and writes; ERC-721 approval bookkeeping is orthogonal to every claim).
Mappings are total functions with Solidity's zero-default. -/
structure NFTState where
  tokenIdCounter : Nat
  owners : Nat → Address
  invoices : Nat → InvoiceData
  documentHashToTokenId : B32 → Nat

/-- The freshly deployed `InvoiceNFT` storage. -/
def NFTState.init : NFTState :=
  { tokenIdCounter := 0, owners := fun _ => 0
    invoices := fun _ => InvoiceData.empty
    documentHashToTokenId := fun _ => 0 }

/-- `InvoiceNFT.mint` (lines 177-216): validation, fresh token id,
record the invoice, map the document hash to the token.  The caller in every
pool-driven flow is the pool contract, the NFT's owner, so the
`onlyOwnerOrOracle` modifier passes and is not a parameter here. -/
def NFTState.mint (n : NFTState) (now : Nat) (to_ : Address) (documentHash : B32)
    (amount dueDate : Nat) (seller : Address) (riskScore : Nat) (uri : String) :
    Except Err (Nat × NFTState) :=
  if to_ = 0 then .error .ZeroAddress
  else if documentHash = 0 then .error .ZeroAddress
  else if uri.length = 0 then .error .EmptyMetadataURI
  else if amount = 0 then .error .ZeroAmount
  else if dueDate ≤ now then .error .InvalidDueDate
  else if riskScore > 100 then .error .InvalidRiskScore
  else if n.documentHashToTokenId documentHash ≠ 0 then .error .DocumentAlreadyFinanced
  else
    let tokenId := n.tokenIdCounter + 1
    .ok (tokenId,
      { tokenIdCounter := tokenId
        owners := fun t => if t = tokenId then to_ else n.owners t
        invoices := fun t => if t = tokenId then
            { documentHash := documentHash, publicMetadataURI := uri, amount := amount
              dueDate := dueDate, seller := seller, riskScore := riskScore
              isRepaid := false, fundedAt := now }
          else n.invoices t
        documentHashToTokenId := fun h =>
          if h = documentHash then tokenId else n.documentHashToTokenId h })

/-- `InvoiceNFT.markRepaid` (lines 222-228): flips `isRepaid`; the
fingerprint mapping is NOT touched here. -/
def NFTState.markRepaid (n : NFTState) (tokenId : Nat) : Except Err NFTState :=
  if n.owners tokenId = 0 then .error .TokenDoesNotExist
  else if (n.invoices tokenId).isRepaid then .error .AlreadyRepaid
  else .ok { n with invoices := fun t =>
    if t = tokenId then { n.invoices tokenId with isRepaid := true } else n.invoices t }

/-- `InvoiceNFT.burn` (lines 236-254): only a repaid token can be burned;
clears ownership, the invoice record, and the fingerprint mapping entry. -/
def NFTState.burn (n : NFTState) (tokenId : Nat) : Except Err NFTState :=
  if n.owners tokenId = 0 then .error .TokenDoesNotExist
  else if ¬ (n.invoices tokenId).isRepaid then .error .Unauthorized
  else
    let documentHash := (n.invoices tokenId).documentHash
    .ok { tokenIdCounter := n.tokenIdCounter
          owners := fun t => if t = tokenId then 0 else n.owners t
          invoices := fun t => if t = tokenId then InvoiceData.empty else n.invoices t
          documentHashToTokenId := fun h =>
            if h = documentHash then 0 else n.documentHashToTokenId h }

/-- `InvoiceNFT.isDocumentFinanced` (lines 276-278): the mapping holds an entry. -/
def NFTState.isDocumentFinanced (n : NFTState) (documentHash : B32) : Bool :=
  n.documentHashToTokenId documentHash != 0

/-- `InvoiceLiquidityPool.Loan`: per-loan record held in the pool. -/
structure LoanRec where
  principal : Nat
  expectedYield : Nat
  fundedAt : Nat
  isActive : Bool
  documentHash : B32
deriving DecidableEq, Repr

/-- The all-zero `Loan`, the default value of the pool's `loans` mapping. -/
def LoanRec.empty : LoanRec :=
  { principal := 0, expectedYield := 0, fundedAt := 0, isActive := false, documentHash := 0 }

/-- The exact ordered field tuple that `fundLoan` hashes with
`keccak256(abi.encodePacked(...))` and whose eth-signed hash the oracle signs
(pool lines 371-380, mirrored by the backend's `solidityPackedKeccak256`). -/
structure Message where
  documentHash : B32
  amount : Nat
  dueDate : Nat
  seller : Address
  riskScore : Nat
  expectedYieldBps : Nat
  nonce : B32
  pool : Address
deriving DecidableEq, Repr

/-- `InvoiceLiquidityPool.FundLoanParams`. The signature is opaque data fed
to the abstract recover function. -/
structure FundLoanParams where
  documentHash : B32
  publicMetadataURI : String
  amount : Nat
  dueDate : Nat
  seller : Address
  riskScore : Nat
  expectedYieldBps : Nat
  nonce : B32
  signature : Nat
deriving DecidableEq, Repr

/-- Environment of the pool that the claims treat as fixed: the trusted
oracle identity, the pool's own address, the abstracted signature recovery
(`_recoverSigner` composed with the eth-signed-message keccak chain), and
the `IdentitySBT.isVerifiedBusiness` KYB gate. -/
structure Config where
  oracle : Address
  poolAddr : Address
  recover : Message → Nat → Address
  isVerifiedBusiness : Address → Bool

/-- Storage of the `InvoiceLiquidityPool` contract.  `balance` is
`asset.balanceOf(address(this))`, the pool's USDC balance.  `totalSupply`,
`shareBal` and `allow` are the lUSDC share token's ERC20 books: ERC20.sol
itself is not in the tree, so those three fields and `mintShares` /
`burnShares` / `spendAllowance` below are modelled from the spec
(sections 3 and 4.2). -/
structure PoolState where
  balance : Nat
  totalSupply : Nat
  shareBal : Address → Nat
  allow : Address → Address → Nat
  maxUtilizationBps : Nat
  protocolFeeBps : Nat
  totalActiveLoans : Nat
  accumulatedFees : Nat
  usedNonces : B32 → Bool
  loans : Nat → LoanRec
  nft : NFTState

/-- The pool right after the constructor: default caps 9000/1000 bps,
everything else zero, NFT contract fresh. -/
def PoolState.init : PoolState :=
  { balance := 0, totalSupply := 0, shareBal := fun _ => 0, allow := fun _ _ => 0
    maxUtilizationBps := 9000, protocolFeeBps := 1000
    totalActiveLoans := 0, accumulatedFees := 0
    usedNonces := fun _ => false, loans := fun _ => LoanRec.empty
    nft := NFTState.init }

/-- `totalAssets` (lines 163-165): idle balance plus active principal minus
accrued protocol fees. -/
def totalAssets (s : PoolState) : Nat :=
  s.balance + s.totalActiveLoans - s.accumulatedFees

/-- `convertToShares` (lines 170-173): 1:1 on an empty share supply, else
floor of `assets * supply / totalAssets()`. -/
def convertToShares (s : PoolState) (assets : Nat) : Nat :=
  if s.totalSupply = 0 then assets else assets * s.totalSupply / totalAssets s

/-- `convertToAssets` (lines 178-181): 1:1 on an empty share supply, else
floor of `shares * totalAssets() / supply`. -/
def convertToAssets (s : PoolState) (shares : Nat) : Nat :=
  if s.totalSupply = 0 then shares else shares * totalAssets s / s.totalSupply

/-- `previewDeposit` (lines 193-195). -/
def previewDeposit (s : PoolState) (assets : Nat) : Nat :=
  convertToShares s assets

/-- `previewMint` (lines 228-231): round-up via `(x + supply - 1) / supply`. -/
def previewMint (s : PoolState) (shares : Nat) : Nat :=
  if s.totalSupply = 0 then shares
  else (shares * totalAssets s + s.totalSupply - 1) / s.totalSupply

/-- `previewWithdraw` (lines 260-263): round-up via
`(x + totalAssets() - 1) / totalAssets()`. -/
def previewWithdraw (s : PoolState) (assets : Nat) : Nat :=
  if s.totalSupply = 0 then assets
  else (assets * s.totalSupply + totalAssets s - 1) / totalAssets s

/-- `previewRedeem` (lines 312-314). -/
def previewRedeem (s : PoolState) (shares : Nat) : Nat :=
  convertToAssets s shares

/-- Modelled from the spec: ERC20.sol (the lUSDC share token) is not in the
source tree.  `_mint` credits the receiver and grows the total supply
(spec section 3, LiquidityProviderPosition / totalShares). -/
def mintShares (s : PoolState) (to_ : Address) (shares : Nat) : PoolState :=
  { s with totalSupply := s.totalSupply + shares
           shareBal := fun a => if a = to_ then s.shareBal a + shares else s.shareBal a }

/-- Modelled from the spec: ERC20.sol is not in the source tree.  `_burn`
debits the owner and shrinks the total supply; burning more than the owner
holds reverts, and a supply underflow is a checked-arithmetic panic. -/
def burnShares (s : PoolState) (from_ : Address) (shares : Nat) : Except Err PoolState :=
  if s.shareBal from_ < shares then .error .InsufficientShares
  else if s.totalSupply < shares then .error .Panic
  else .ok { s with totalSupply := s.totalSupply - shares
                    shareBal := fun a => if a = from_ then s.shareBal a - shares else s.shareBal a }

/-- The shared allowance clause of `withdraw`/`redeem` (lines 281-287 and
332-338): when the caller is not the share owner, a finite allowance must
cover the burned shares and is decremented; `type(uint256).max` is the
unlimited sentinel. -/
def spendAllowance (s : PoolState) (owner_ spender : Address) (shares : Nat) :
    Except Err PoolState :=
  let allowed := s.allow owner_ spender
  if allowed = UINT256MAX then .ok s
  else if allowed < shares then .error .RequireViolation
  else .ok { s with allow := fun o sp =>
    if o = owner_ ∧ sp = spender then allowed - shares else s.allow o sp }

/-- `deposit` (lines 203-216): zero checks, shares from the pre-transfer
state, pull the assets in, mint the shares.  The division inside
`convertToShares` is by `totalAssets()`: when the supply is nonzero and
`totalAssets()` is zero that division reverts (Panic 0x12). -/
def deposit (s : PoolState) (receiver : Address) (assets : Nat) :
    Except Err (Nat × PoolState) :=
  if assets = 0 then .error .ZeroAmount
  else if receiver = 0 then .error .ZeroAddress
  else if s.totalSupply ≠ 0 ∧ totalAssets s = 0 then .error .Panic
  else
    let shares := previewDeposit s assets
    let s1 := { s with balance := s.balance + assets }
    .ok (shares, mintShares s1 receiver shares)

/-- `mint` (lines 236-246): assets from `previewMint`, pull them in, mint
the exact requested shares. -/
def mint (s : PoolState) (receiver : Address) (shares : Nat) :
    Except Err (Nat × PoolState) :=
  if shares = 0 then .error .ZeroAmount
  else if receiver = 0 then .error .ZeroAddress
  else
    let assets := previewMint s shares
    let s1 := { s with balance := s.balance + assets }
    .ok (assets, mintShares s1 receiver shares)

/-- `withdraw` (lines 272-293): liquidity check against
`balance - accumulatedFees` (a checked subtraction), round-up share burn,
allowance clause, burn, pay out. -/
def withdraw (s : PoolState) (caller receiver owner_ : Address) (assets : Nat) :
    Except Err (Nat × PoolState) :=
  if assets = 0 then .error .ZeroAmount
  else if receiver = 0 then .error .ZeroAddress
  else if s.balance < s.accumulatedFees then .error .Panic
  else if assets > s.balance - s.accumulatedFees then .error .InsufficientLiquidity
  else if s.totalSupply ≠ 0 ∧ totalAssets s = 0 then .error .Panic
  else
    let shares := previewWithdraw s assets
    match (if caller ≠ owner_ then spendAllowance s owner_ caller shares else .ok s) with
    | .error e => .error e
    | .ok s1 =>
      match burnShares s1 owner_ shares with
      | .error e => .error e
      | .ok s2 => .ok (shares, { s2 with balance := s2.balance - assets })

/-- `redeem` (lines 323-344): assets from the round-down preview first, then
the same liquidity and allowance checks, burn, pay out. -/
def redeem (s : PoolState) (caller receiver owner_ : Address) (shares : Nat) :
    Except Err (Nat × PoolState) :=
  if shares = 0 then .error .ZeroAmount
  else if receiver = 0 then .error .ZeroAddress
  else
    let assets := previewRedeem s shares
    if s.balance < s.accumulatedFees then .error .Panic
    else if assets > s.balance - s.accumulatedFees then .error .InsufficientLiquidity
    else
      match (if caller ≠ owner_ then spendAllowance s owner_ caller shares else .ok s) with
      | .error e => .error e
      | .ok s1 =>
        match burnShares s1 owner_ shares with
        | .error e => .error e
        | .ok s2 => .ok (assets, { s2 with balance := s2.balance - assets })

/-- The signed message a `fundLoan` request stands for (pool lines 371-380). -/
def msgOf (cfg : Config) (p : FundLoanParams) : Message :=
  { documentHash := p.documentHash, amount := p.amount, dueDate := p.dueDate
    seller := p.seller, riskScore := p.riskScore, expectedYieldBps := p.expectedYieldBps
    nonce := p.nonce, pool := cfg.poolAddr }

/-- `fundLoan` (lines 364-427), in the source's exact order: KYB modifier,
nonce check and consumption, signature check, utilization and liquidity
checks, due-date check, NFT mint (which performs its own validation
including the double-financing guard), `LoanAlreadyExists` check, then the
loan record, `totalActiveLoans` increase and payout to the seller. -/
def fundLoan (cfg : Config) (now : Nat) (caller : Address) (s : PoolState)
    (p : FundLoanParams) : Except Err (Nat × PoolState) :=
  if ¬ cfg.isVerifiedBusiness caller then .error .NotVerifiedBusiness
  else if s.usedNonces p.nonce then .error .NonceAlreadyUsed
  else
    let s1 := { s with usedNonces := fun nc => if nc = p.nonce then true else s.usedNonces nc }
    if cfg.recover (msgOf cfg p) p.signature ≠ cfg.oracle then .error .InvalidSignature
    else if s1.balance < s1.accumulatedFees then .error .Panic
    else if s1.totalActiveLoans + p.amount > totalAssets s1 * s1.maxUtilizationBps / 10000 then
      .error .ExceedsMaxUtilization
    else if p.amount > s1.balance - s1.accumulatedFees then .error .InsufficientLiquidity
    else if p.dueDate ≤ now then .error .InvoiceExpired
    else
      match s1.nft.mint now cfg.poolAddr p.documentHash p.amount p.dueDate p.seller
          p.riskScore p.publicMetadataURI with
      | .error e => .error e
      | .ok (tokenId, nft1) =>
        if (s1.loans tokenId).isActive then .error .LoanAlreadyExists
        else
          .ok (tokenId,
            { s1 with nft := nft1
                      loans := fun t => if t = tokenId then
                          { principal := p.amount
                            expectedYield := p.amount * p.expectedYieldBps / 10000
                            fundedAt := now, isActive := true
                            documentHash := p.documentHash }
                        else s1.loans t
                      totalActiveLoans := s1.totalActiveLoans + p.amount
                      balance := s1.balance - p.amount })

/-- EVM transaction semantics of a `fundLoan` call: a revert rolls every
state change of the call back, so a failed call leaves the pre-call state. -/
def txFundLoan (cfg : Config) (now : Nat) (caller : Address) (s : PoolState)
    (p : FundLoanParams) : PoolState × Except Err Nat :=
  match fundLoan cfg now caller s p with
  | .ok (tokenId, s1) => (s1, .ok tokenId)
  | .error e => (s, .error e)

/-- `repayLoan` (lines 434-458): oracle only; an inactive loan is rejected;
fee on the actual yield, loan deactivated, totals updated, NFT marked
repaid.  The `totalActiveLoans -= principal` subtraction is checked. -/
def repayLoan (cfg : Config) (caller : Address) (s : PoolState)
    (tokenId actualYield : Nat) : Except Err PoolState :=
  if caller ≠ cfg.oracle then .error .Unauthorized
  else if ¬ (s.loans tokenId).isActive then .error .LoanNotActive
  else
    let principal := (s.loans tokenId).principal
    let fee := actualYield * s.protocolFeeBps / 10000
    if s.totalActiveLoans < principal then .error .Panic
    else
      let s1 := { s with
        loans := fun t => if t = tokenId then { s.loans tokenId with isActive := false }
                          else s.loans t
        totalActiveLoans := s.totalActiveLoans - principal
        accumulatedFees := s.accumulatedFees + fee }
      match s1.nft.markRepaid tokenId with
      | .error e => .error e
      | .ok nft1 => .ok { s1 with nft := nft1 }

/-- `depositRepayment` (lines 464-466): oracle pushes the repayment funds in. -/
def depositRepayment (cfg : Config) (caller : Address) (s : PoolState) (amount : Nat) :
    Except Err PoolState :=
  if caller ≠ cfg.oracle then .error .Unauthorized
  else .ok { s with balance := s.balance + amount }

/-- `burnRepaidInvoice` (lines 473-478): oracle only; the loan must no
longer be active; delegates to the NFT burn. -/
def burnRepaidInvoice (cfg : Config) (caller : Address) (s : PoolState) (tokenId : Nat) :
    Except Err PoolState :=
  if caller ≠ cfg.oracle then .error .Unauthorized
  else if (s.loans tokenId).isActive then .error .LoanNotActive
  else
    match s.nft.burn tokenId with
    | .error e => .error e
    | .ok nft1 => .ok { s with nft := nft1 }

/-- `withdrawFees` (lines 558-563): zero the fee pot and transfer it out;
the transfer fails if the pool balance cannot cover it. -/
def withdrawFees (s : PoolState) : Except Err PoolState :=
  if s.balance < s.accumulatedFees then .error .TransferFailed
  else .ok { s with accumulatedFees := 0, balance := s.balance - s.accumulatedFees }

/-- `setMaxUtilization` (lines 541-545). -/
def setMaxUtilization (s : PoolState) (bps : Nat) : Except Err PoolState :=
  if bps ≤ 10000 then .ok { s with maxUtilizationBps := bps } else .error .RequireViolation

/-- `setProtocolFee` (lines 547-551). -/
def setProtocolFee (s : PoolState) (bps : Nat) : Except Err PoolState :=
  if bps ≤ 5000 then .ok { s with protocolFeeBps := bps } else .error .RequireViolation

/-- The NFT storage a successful `InvoiceNFT.mint` leaves behind. -/
def mintPost (n : NFTState) (now : Nat) (to_ : Address) (documentHash : B32)
    (amount dueDate : Nat) (seller : Address) (riskScore : Nat) (uri : String) : NFTState :=
  { tokenIdCounter := n.tokenIdCounter + 1
    owners := fun t => if t = n.tokenIdCounter + 1 then to_ else n.owners t
    invoices := fun t => if t = n.tokenIdCounter + 1 then
        { documentHash := documentHash, publicMetadataURI := uri, amount := amount
          dueDate := dueDate, seller := seller, riskScore := riskScore
          isRepaid := false, fundedAt := now }
      else n.invoices t
    documentHashToTokenId := fun h =>
      if h = documentHash then n.tokenIdCounter + 1 else n.documentHashToTokenId h }

/-- A successful NFT mint implies every validation passed, the token id is
the incremented counter, and the resulting storage is `mintPost`. -/
theorem mint_ok_elim {n : NFTState} {now : Nat} {to_ : Address} {dh : B32}
    {amount dueDate : Nat} {seller : Address} {riskScore : Nat} {uri : String}
    {t : Nat} {n1 : NFTState}
    (h : NFTState.mint n now to_ dh amount dueDate seller riskScore uri = .ok (t, n1)) :
    to_ ≠ 0 ∧ dh ≠ 0 ∧ uri.length ≠ 0 ∧ amount ≠ 0 ∧ now < dueDate ∧ riskScore ≤ 100 ∧
    n.documentHashToTokenId dh = 0 ∧ t = n.tokenIdCounter + 1 ∧
    n1 = mintPost n now to_ dh amount dueDate seller riskScore uri := by
  unfold NFTState.mint at h
  split_ifs at h with h1 h2 h3 h4 h5 h6 h7
  injection h with h8
  injection h8 with ht hn
  exact ⟨h1, h2, h3, h4, by omega, by omega, by omega, ht.symm, hn.symm⟩

/-- When every validation passes, the NFT mint succeeds with the
incremented counter and the `mintPost` storage. -/
theorem mint_ok_intro {n : NFTState} {now : Nat} {to_ : Address} {dh : B32}
    {amount dueDate : Nat} {seller : Address} {riskScore : Nat} {uri : String}
    (h1 : to_ ≠ 0) (h2 : dh ≠ 0) (h3 : uri.length ≠ 0) (h4 : amount ≠ 0)
    (h5 : now < dueDate) (h6 : riskScore ≤ 100) (h7 : n.documentHashToTokenId dh = 0) :
    NFTState.mint n now to_ dh amount dueDate seller riskScore uri
      = .ok (n.tokenIdCounter + 1, mintPost n now to_ dh amount dueDate seller riskScore uri) := by
  unfold NFTState.mint mintPost
  rw [if_neg h1, if_neg h2, if_neg h3, if_neg h4, if_neg (by omega), if_neg (by omega),
    if_neg (by simp [h7])]

/-- The pool state a successful `fundLoan` leaves behind: nonce consumed,
NFT minted, loan recorded, `totalActiveLoans` grown and the funded amount
paid out of the idle balance. -/
def fundLoanPost (cfg : Config) (now : Nat) (s : PoolState) (p : FundLoanParams) : PoolState :=
  { s with
    usedNonces := fun nc => if nc = p.nonce then true else s.usedNonces nc
    nft := mintPost s.nft now cfg.poolAddr p.documentHash p.amount p.dueDate p.seller
      p.riskScore p.publicMetadataURI
    loans := fun t => if t = s.nft.tokenIdCounter + 1 then
        { principal := p.amount, expectedYield := p.amount * p.expectedYieldBps / 10000
          fundedAt := now, isActive := true, documentHash := p.documentHash }
      else s.loans t
    totalActiveLoans := s.totalActiveLoans + p.amount
    balance := s.balance - p.amount }

set_option maxHeartbeats 1000000 in
/-- A successful `fundLoan` implies every check passed (in particular the
utilization and liquidity bounds on the pre-state), the returned token id is
the incremented NFT counter, and the post-state is `fundLoanPost`. -/
theorem fundLoan_ok_elim {cfg : Config} {now : Nat} {caller : Address} {s : PoolState}
    {p : FundLoanParams} {t : Nat} {s1 : PoolState}
    (h : fundLoan cfg now caller s p = .ok (t, s1)) :
    cfg.isVerifiedBusiness caller = true ∧
    s.usedNonces p.nonce = false ∧
    cfg.recover (msgOf cfg p) p.signature = cfg.oracle ∧
    s.accumulatedFees ≤ s.balance ∧
    s.totalActiveLoans + p.amount ≤ totalAssets s * s.maxUtilizationBps / 10000 ∧
    p.amount ≤ s.balance - s.accumulatedFees ∧
    now < p.dueDate ∧
    cfg.poolAddr ≠ 0 ∧ p.documentHash ≠ 0 ∧ p.publicMetadataURI.length ≠ 0 ∧
    p.amount ≠ 0 ∧ p.riskScore ≤ 100 ∧
    s.nft.documentHashToTokenId p.documentHash = 0 ∧
    (s.loans (s.nft.tokenIdCounter + 1)).isActive = false ∧
    t = s.nft.tokenIdCounter + 1 ∧
    s1 = fundLoanPost cfg now s p := by
  simp only [fundLoan, totalAssets] at h
  split_ifs at h with h1 h2 h3 h4 h5 h6 h7
  rcases hm : NFTState.mint s.nft now cfg.poolAddr p.documentHash p.amount p.dueDate
      p.seller p.riskScore p.publicMetadataURI with e | ⟨tk, nft1⟩
  · rw [hm] at h; exact Except.noConfusion h
  · rw [hm] at h
    simp only [] at h
    obtain ⟨hto, hdh, huri, hamt, hdue, hrisk, hguard, htk, hnft⟩ := mint_ok_elim hm
    split_ifs at h with h8
    injection h with h9
    injection h9 with ht hs
    subst htk hnft
    refine ⟨by simpa using h1, by simpa using h2, by simpa using h3,
      Nat.le_of_not_lt h4, ?_, Nat.le_of_not_lt h6, Nat.lt_of_not_le h7,
      hto, hdh, huri, hamt, hrisk, hguard, by simpa using h8, ht.symm, ?_⟩
    · simp only [totalAssets]
      exact Nat.le_of_not_lt h5
    · rw [← hs]
      rfl

/-- When every check passes, `fundLoan` succeeds, returning the incremented
NFT counter as the loan id and the `fundLoanPost` state. -/
theorem fundLoan_ok_intro {cfg : Config} {now : Nat} {caller : Address} {s : PoolState}
    {p : FundLoanParams}
    (hver : cfg.isVerifiedBusiness caller = true)
    (hnonce : s.usedNonces p.nonce = false)
    (hsig : cfg.recover (msgOf cfg p) p.signature = cfg.oracle)
    (hfees : s.accumulatedFees ≤ s.balance)
    (hcap : s.totalActiveLoans + p.amount ≤ totalAssets s * s.maxUtilizationBps / 10000)
    (hliq : p.amount ≤ s.balance - s.accumulatedFees)
    (hdue : now < p.dueDate)
    (hpool : cfg.poolAddr ≠ 0) (hdh : p.documentHash ≠ 0)
    (huri : p.publicMetadataURI.length ≠ 0) (hamt : p.amount ≠ 0) (hrisk : p.riskScore ≤ 100)
    (hguard : s.nft.documentHashToTokenId p.documentHash = 0)
    (hfree : (s.loans (s.nft.tokenIdCounter + 1)).isActive = false) :
    fundLoan cfg now caller s p = .ok (s.nft.tokenIdCounter + 1, fundLoanPost cfg now s p) := by
  simp only [totalAssets] at hcap
  simp only [fundLoan, totalAssets]
  rw [if_neg (by simp [hver]), if_neg (by simp [hnonce]), if_neg (by simp [hsig]),
    if_neg (Nat.not_lt.mpr hfees), if_neg (Nat.not_lt.mpr hcap), if_neg (Nat.not_lt.mpr hliq),
    if_neg (Nat.not_le.mpr hdue)]
  rw [mint_ok_intro hpool hdh huri hamt hdue hrisk hguard]
  simp only []
  rw [if_neg (by simpa using hfree)]
  rfl

/-- A reused nonce is rejected before any other check beyond the KYB gate:
whatever the other fields hold, the call fails with the nonce error. -/
theorem fundLoan_nonce_reuse {cfg : Config} {now : Nat} {caller : Address} {s : PoolState}
    {p : FundLoanParams} (hver : cfg.isVerifiedBusiness caller = true)
    (hused : s.usedNonces p.nonce = true) :
    fundLoan cfg now caller s p = .error .NonceAlreadyUsed := by
  unfold fundLoan
  rw [if_neg (by simp [hver]), if_pos hused]

/-- Funding leaves `totalAssets` unchanged: the idle balance drop equals the
active-loan growth and the fee pot is untouched. -/
theorem totalAssets_fundLoanPost {cfg : Config} {now : Nat} {s : PoolState}
    {p : FundLoanParams} (hfees : s.accumulatedFees ≤ s.balance)
    (hliq : p.amount ≤ s.balance - s.accumulatedFees) :
    totalAssets (fundLoanPost cfg now s p) = totalAssets s := by
  simp only [totalAssets, fundLoanPost]
  omega

/-- A successful allowance spend only rewrites the allowance table. -/
theorem spendAllowance_ok_shape {s : PoolState} {o sp : Address} {n : Nat} {s2 : PoolState}
    (h : spendAllowance s o sp n = .ok s2) : ∃ al, s2 = { s with allow := al } := by
  simp only [spendAllowance] at h
  split_ifs at h with h1 h2
  · injection h with h3
    exact ⟨s.allow, h3.symm⟩
  · injection h with h3
    exact ⟨_, h3.symm⟩

/-- A successful share burn implies the owner held enough shares, the burn
fits inside the supply, and the books shrink by exactly the burned amount. -/
theorem burnShares_ok_elim {s : PoolState} {f : Address} {n : Nat} {s2 : PoolState}
    (h : burnShares s f n = .ok s2) :
    n ≤ s.shareBal f ∧ n ≤ s.totalSupply ∧
    s2 = { s with totalSupply := s.totalSupply - n
                  shareBal := fun a => if a = f then s.shareBal a - n else s.shareBal a } := by
  simp only [burnShares] at h
  split_ifs at h with h1 h2
  injection h with h3
  exact ⟨Nat.le_of_not_lt h1, Nat.le_of_not_lt h2, h3.symm⟩

/-- A successful deposit implies the zero checks and the division guard
passed, the minted shares are the round-down preview on the pre-state, the
idle balance grows by the assets and the supply by the shares; loan and NFT
state are untouched. -/
theorem deposit_ok_elim {s : PoolState} {receiver : Address} {assets sh : Nat} {s1 : PoolState}
    (h : deposit s receiver assets = .ok (sh, s1)) :
    assets ≠ 0 ∧ receiver ≠ 0 ∧ (s.totalSupply = 0 ∨ totalAssets s ≠ 0) ∧
    sh = previewDeposit s assets ∧
    s1.balance = s.balance + assets ∧
    s1.totalSupply = s.totalSupply + sh ∧
    s1.totalActiveLoans = s.totalActiveLoans ∧
    s1.accumulatedFees = s.accumulatedFees ∧
    s1.maxUtilizationBps = s.maxUtilizationBps ∧
    s1.protocolFeeBps = s.protocolFeeBps ∧
    s1.loans = s.loans ∧ s1.nft = s.nft ∧ s1.usedNonces = s.usedNonces := by
  simp only [deposit] at h
  split_ifs at h with h1 h2 h3
  injection h with h4
  injection h4 with hsh hs
  subst hs
  subst hsh
  refine ⟨h1, h2, by tauto, rfl, ?_, ?_, ?_, ?_, ?_, ?_, ?_, ?_, ?_⟩ <;>
    simp [mintShares]

/-- A successful `withdraw` implies the liquidity checks passed, the burned
shares are the round-up preview on the pre-state bounded by the supply, the
idle balance drops by the assets and the supply by the shares; fee, loan and
NFT state are untouched. -/
theorem withdraw_ok_elim {s : PoolState} {caller receiver owner_ : Address}
    {assets sh : Nat} {s1 : PoolState}
    (h : withdraw s caller receiver owner_ assets = .ok (sh, s1)) :
    assets ≠ 0 ∧ receiver ≠ 0 ∧ s.accumulatedFees ≤ s.balance ∧
    assets ≤ s.balance - s.accumulatedFees ∧
    (s.totalSupply = 0 ∨ totalAssets s ≠ 0) ∧
    sh = previewWithdraw s assets ∧ sh ≤ s.totalSupply ∧
    s1.balance = s.balance - assets ∧
    s1.totalSupply = s.totalSupply - sh ∧
    s1.totalActiveLoans = s.totalActiveLoans ∧
    s1.accumulatedFees = s.accumulatedFees ∧
    s1.maxUtilizationBps = s.maxUtilizationBps ∧
    s1.protocolFeeBps = s.protocolFeeBps ∧
    s1.loans = s.loans ∧ s1.nft = s.nft ∧ s1.usedNonces = s.usedNonces := by
  simp only [withdraw] at h
  split_ifs at h with h1 h2 h3 h4 h5 h6
  · rcases hA : spendAllowance s owner_ caller (previewWithdraw s assets) with e | sA
    · rw [hA] at h; exact Except.noConfusion h
    · rw [hA] at h
      simp only [] at h
      obtain ⟨al, rfl⟩ := spendAllowance_ok_shape hA
      rcases hB : burnShares { s with allow := al } owner_ (previewWithdraw s assets)
        with e | sB
      · rw [hB] at h; exact Except.noConfusion h
      · rw [hB] at h
        simp only [] at h
        obtain ⟨hb1, hb2, rfl⟩ := burnShares_ok_elim hB
        injection h with h7
        injection h7 with hsh hs
        subst hs
        subst hsh
        exact ⟨h1, h2, Nat.le_of_not_lt h3, Nat.le_of_not_lt h4, by tauto, rfl, hb2,
          rfl, rfl, rfl, rfl, rfl, rfl, rfl, rfl, rfl⟩
  · simp only [] at h
    rcases hB : burnShares s owner_ (previewWithdraw s assets) with e | sB
    · rw [hB] at h; exact Except.noConfusion h
    · rw [hB] at h
      simp only [] at h
      obtain ⟨hb1, hb2, rfl⟩ := burnShares_ok_elim hB
      injection h with h7
      injection h7 with hsh hs
      subst hs
      subst hsh
      exact ⟨h1, h2, Nat.le_of_not_lt h3, Nat.le_of_not_lt h4, by tauto, rfl, hb2,
        rfl, rfl, rfl, rfl, rfl, rfl, rfl, rfl, rfl⟩

/-- A successful `redeem` pays out the round-down preview, burns the exact
requested shares, and leaves fee, loan and NFT state untouched. -/
theorem redeem_ok_elim {s : PoolState} {caller receiver owner_ : Address}
    {shares a : Nat} {s1 : PoolState}
    (h : redeem s caller receiver owner_ shares = .ok (a, s1)) :
    shares ≠ 0 ∧ receiver ≠ 0 ∧ s.accumulatedFees ≤ s.balance ∧
    a = previewRedeem s shares ∧ a ≤ s.balance - s.accumulatedFees ∧
    shares ≤ s.totalSupply ∧
    s1.balance = s.balance - a ∧
    s1.totalSupply = s.totalSupply - shares ∧
    s1.totalActiveLoans = s.totalActiveLoans ∧
    s1.accumulatedFees = s.accumulatedFees ∧
    s1.maxUtilizationBps = s.maxUtilizationBps ∧
    s1.protocolFeeBps = s.protocolFeeBps ∧
    s1.loans = s.loans ∧ s1.nft = s.nft ∧ s1.usedNonces = s.usedNonces := by
  simp only [redeem] at h
  split_ifs at h with h1 h2 h3 h4 h5
  · rcases hA : spendAllowance s owner_ caller shares with e | sA
    · rw [hA] at h; exact Except.noConfusion h
    · rw [hA] at h
      simp only [] at h
      obtain ⟨al, rfl⟩ := spendAllowance_ok_shape hA
      rcases hB : burnShares { s with allow := al } owner_ shares with e | sB
      · rw [hB] at h; exact Except.noConfusion h
      · rw [hB] at h
        simp only [] at h
        obtain ⟨hb1, hb2, rfl⟩ := burnShares_ok_elim hB
        injection h with h6
        injection h6 with ha hs
        subst hs
        subst ha
        exact ⟨h1, h2, Nat.le_of_not_lt h3, rfl, Nat.le_of_not_lt h4, hb2,
          rfl, rfl, rfl, rfl, rfl, rfl, rfl, rfl, rfl⟩
  · simp only [] at h
    rcases hB : burnShares s owner_ shares with e | sB
    · rw [hB] at h; exact Except.noConfusion h
    · rw [hB] at h
      simp only [] at h
      obtain ⟨hb1, hb2, rfl⟩ := burnShares_ok_elim hB
      injection h with h6
      injection h6 with ha hs
      subst hs
      subst ha
      exact ⟨h1, h2, Nat.le_of_not_lt h3, rfl, Nat.le_of_not_lt h4, hb2,
        rfl, rfl, rfl, rfl, rfl, rfl, rfl, rfl, rfl⟩

/-- A successful pool `mint` leaves fee, loan and NFT state untouched and
adds the previewed assets and the requested shares to the books. -/
theorem mint_pool_ok_elim {s : PoolState} {receiver : Address} {shares a : Nat} {s1 : PoolState}
    (h : mint s receiver shares = .ok (a, s1)) :
    shares ≠ 0 ∧ receiver ≠ 0 ∧ a = previewMint s shares ∧
    s1.balance = s.balance + a ∧
    s1.totalSupply = s.totalSupply + shares ∧
    s1.totalActiveLoans = s.totalActiveLoans ∧
    s1.accumulatedFees = s.accumulatedFees ∧
    s1.loans = s.loans ∧ s1.nft = s.nft ∧ s1.usedNonces = s.usedNonces := by
  simp only [mint] at h
  split_ifs at h with h1 h2
  injection h with h4
  injection h4 with ha hs
  subst hs
  subst ha
  refine ⟨h1, h2, rfl, ?_, ?_, ?_, ?_, ?_, ?_, ?_⟩ <;> simp [mintShares]

/-- The NFT storage a successful `markRepaid` leaves behind. -/
theorem markRepaid_ok_elim {n : NFTState} {tokenId : Nat} {n1 : NFTState}
    (h : NFTState.markRepaid n tokenId = .ok n1) :
    n.owners tokenId ≠ 0 ∧ (n.invoices tokenId).isRepaid = false ∧
    n1 = { n with invoices := fun t =>
      if t = tokenId then { n.invoices tokenId with isRepaid := true } else n.invoices t } := by
  simp only [NFTState.markRepaid] at h
  split_ifs at h with h1 h2
  injection h with h3
  exact ⟨h1, by simpa using h2, h3.symm⟩

/-- The pool state a successful `repayLoan` leaves behind: loan deactivated,
principal released from `totalActiveLoans`, fee accrued, NFT marked repaid;
the idle balance, the share books and the fingerprint mapping are untouched. -/
def repayPost (s : PoolState) (tokenId actualYield : Nat) : PoolState :=
  { s with
    loans := fun t => if t = tokenId then { s.loans tokenId with isActive := false }
                      else s.loans t
    totalActiveLoans := s.totalActiveLoans - (s.loans tokenId).principal
    accumulatedFees := s.accumulatedFees + actualYield * s.protocolFeeBps / 10000
    nft := { s.nft with invoices := fun t =>
      if t = tokenId then { s.nft.invoices tokenId with isRepaid := true }
      else s.nft.invoices t } }

/-- A successful `repayLoan` implies the oracle called it on an active loan
whose principal fits in `totalActiveLoans`, whose NFT token exists unrepaid,
and the post-state is `repayPost`. -/
theorem repayLoan_ok_elim {cfg : Config} {caller : Address} {s : PoolState}
    {tokenId y : Nat} {s1 : PoolState} (h : repayLoan cfg caller s tokenId y = .ok s1) :
    caller = cfg.oracle ∧ (s.loans tokenId).isActive = true ∧
    (s.loans tokenId).principal ≤ s.totalActiveLoans ∧
    s.nft.owners tokenId ≠ 0 ∧ (s.nft.invoices tokenId).isRepaid = false ∧
    s1 = repayPost s tokenId y := by
  simp only [repayLoan] at h
  split_ifs at h with h1 h2 h3
  rcases hm : NFTState.markRepaid s.nft tokenId with e | nft1
  · rw [hm] at h; exact Except.noConfusion h
  · rw [hm] at h
    simp only [] at h
    obtain ⟨ho, hr, hn⟩ := markRepaid_ok_elim hm
    injection h with h4
    subst hn
    refine ⟨by simpa using h1, by simpa using h2, Nat.le_of_not_lt h3, ho, hr, ?_⟩
    rw [← h4]
    rfl

/-- The NFT storage a successful `burn` leaves behind. -/
theorem burnNFT_ok_elim {n : NFTState} {tokenId : Nat} {n1 : NFTState}
    (h : NFTState.burn n tokenId = .ok n1) :
    n.owners tokenId ≠ 0 ∧ (n.invoices tokenId).isRepaid = true ∧
    n1 = { tokenIdCounter := n.tokenIdCounter
           owners := fun t => if t = tokenId then 0 else n.owners t
           invoices := fun t => if t = tokenId then InvoiceData.empty else n.invoices t
           documentHashToTokenId := fun h2 =>
             if h2 = (n.invoices tokenId).documentHash then 0
             else n.documentHashToTokenId h2 } := by
  simp only [NFTState.burn] at h
  split_ifs at h with h1 h2
  injection h with h3
  exact ⟨h1, by simpa using h2, h3.symm⟩

/-- A successful `burnRepaidInvoice` implies the oracle called it on a loan
that is no longer active and an existing repaid token; only the NFT part of
the state changes, by the NFT burn. -/
theorem burnRepaid_ok_elim {cfg : Config} {caller : Address} {s : PoolState}
    {tokenId : Nat} {s1 : PoolState} (h : burnRepaidInvoice cfg caller s tokenId = .ok s1) :
    caller = cfg.oracle ∧ (s.loans tokenId).isActive = false ∧
    s.nft.owners tokenId ≠ 0 ∧ (s.nft.invoices tokenId).isRepaid = true ∧
    s1 = { s with nft :=
      { tokenIdCounter := s.nft.tokenIdCounter
        owners := fun t => if t = tokenId then 0 else s.nft.owners t
        invoices := fun t => if t = tokenId then InvoiceData.empty else s.nft.invoices t
        documentHashToTokenId := fun h2 =>
          if h2 = (s.nft.invoices tokenId).documentHash then 0
          else s.nft.documentHashToTokenId h2 } } := by
  simp only [burnRepaidInvoice] at h
  split_ifs at h with h1 h2
  rcases hm : NFTState.burn s.nft tokenId with e | nft1
  · rw [hm] at h; exact Except.noConfusion h
  · rw [hm] at h
    simp only [] at h
    obtain ⟨ho, hr, hn⟩ := burnNFT_ok_elim hm
    injection h with h4
    subst hn
    refine ⟨by simpa using h1, by simpa using h2, ho, hr, ?_⟩
    rw [← h4]

/-- A successful `depositRepayment` only grows the idle balance. -/
theorem depositRepayment_ok_elim {cfg : Config} {caller : Address} {s : PoolState}
    {amount : Nat} {s1 : PoolState} (h : depositRepayment cfg caller s amount = .ok s1) :
    caller = cfg.oracle ∧ s1 = { s with balance := s.balance + amount } := by
  simp only [depositRepayment] at h
  split_ifs at h with h1
  injection h with h2
  exact ⟨by simpa using h1, h2.symm⟩

/-! Arithmetic facts about the two rounding policies. -/

/-- Natural floor division is the rational floor of the division. -/
theorem floorQ_nat (x d : Nat) : ⌊((x : ℚ) / (d : ℚ))⌋₊ = x / d := by
  have h := Nat.floor_div_nat (x : ℚ) d
  simpa using h

/-- The source's `(x + d - 1) / d` round-up is the rational ceiling of the division. -/
theorem ceilQ_nat (x d : Nat) (hd : 0 < d) : ⌈((x : ℚ) / (d : ℚ))⌉₊ = (x + d - 1) / d := by
  apply le_antisymm
  · rw [Nat.ceil_le, div_le_iff₀ (by exact_mod_cast hd)]
    have h := Nat.div_add_mod (x + d - 1) d
    have h2 : (x + d - 1) % d < d := Nat.mod_lt _ hd
    have h3 : d * ((x + d - 1) / d) = (x + d - 1) / d * d := Nat.mul_comm _ _
    have h4 : x ≤ (x + d - 1) / d * d := by omega
    exact_mod_cast Nat.cast_le.mpr h4
  · have hle : (x : ℚ) ≤ (⌈(x : ℚ) / (d : ℚ)⌉₊ : ℚ) * d := by
      rw [← div_le_iff₀ (by exact_mod_cast hd)]
      exact Nat.le_ceil _
    have hx : x ≤ ⌈(x : ℚ) / (d : ℚ)⌉₊ * d := by exact_mod_cast hle
    rw [Nat.div_le_iff_le_mul_add_pred hd]
    have h3 : d * ⌈(x : ℚ) / (d : ℚ)⌉₊ = ⌈(x : ℚ) / (d : ℚ)⌉₊ * d := Nat.mul_comm _ _
    omega

/-- Floor division is monotone across different denominators when the
cross-multiplied numerators compare. -/
theorem div_le_div_cross {a b c d : Nat} (hb : 0 < b) (hd : 0 < d) (h : a * d ≤ c * b) :
    a / b ≤ c / d := by
  rw [Nat.le_div_iff_mul_le hd]
  have h1 : a / b * d * b ≤ c * b := by
    calc a / b * d * b = a / b * b * d := by ring
    _ ≤ a * d := Nat.mul_le_mul_right d (Nat.div_mul_le_self a b)
    _ ≤ c * b := h
  exact Nat.le_of_mul_le_mul_right h1 hb

/-- C7: composing the two round-down conversions never yields more assets
than were put in, for every asset amount and every pool state. -/
theorem convert_roundtrip_le (s : PoolState) (a : Nat) :
    convertToAssets s (convertToShares s a) ≤ a := by
  unfold convertToAssets convertToShares
  by_cases hS : s.totalSupply = 0
  · simp [hS]
  · simp only [hS, if_false]
    have h1 : a * s.totalSupply / totalAssets s * totalAssets s ≤ a * s.totalSupply :=
      Nat.div_mul_le_self _ _
    have h2 : a * s.totalSupply / totalAssets s * totalAssets s / s.totalSupply
        ≤ a * s.totalSupply / s.totalSupply := Nat.div_le_div_right h1
    rwa [Nat.mul_div_cancel a (Nat.pos_of_ne_zero hS)] at h2

/-- C6: the four preview conversions apply the required rounding directions
(`previewDeposit` and `previewRedeem` are rational floors, `previewMint` and
`previewWithdraw` rational ceilings of the proportional conversion), and on
an empty share supply every one of them returns its input unchanged. -/
theorem preview_rounding (s : PoolState) (a sh : Nat) :
    (s.totalSupply = 0 →
      previewDeposit s a = a ∧ previewMint s sh = sh ∧
      previewWithdraw s a = a ∧ previewRedeem s sh = sh)
    ∧ (s.totalSupply ≠ 0 → totalAssets s ≠ 0 →
      previewDeposit s a = ⌊((a * s.totalSupply : ℕ) : ℚ) / ((totalAssets s : ℕ) : ℚ)⌋₊
      ∧ previewRedeem s sh = ⌊((sh * totalAssets s : ℕ) : ℚ) / ((s.totalSupply : ℕ) : ℚ)⌋₊
      ∧ previewMint s sh = ⌈((sh * totalAssets s : ℕ) : ℚ) / ((s.totalSupply : ℕ) : ℚ)⌉₊
      ∧ previewWithdraw s a = ⌈((a * s.totalSupply : ℕ) : ℚ) / ((totalAssets s : ℕ) : ℚ)⌉₊) := by
  constructor
  · intro h0
    simp [previewDeposit, previewMint, previewWithdraw, previewRedeem,
      convertToShares, convertToAssets, h0]
  · intro hS hT
    refine ⟨?_, ?_, ?_, ?_⟩
    · rw [previewDeposit, convertToShares, if_neg hS, floorQ_nat]
    · rw [previewRedeem, convertToAssets, if_neg hS, floorQ_nat]
    · rw [previewMint, if_neg hS, ceilQ_nat _ _ (Nat.pos_of_ne_zero hS)]
    · rw [previewWithdraw, if_neg hS, ceilQ_nat _ _ (Nat.pos_of_ne_zero hT)]

/-- With nonce, signature and fee-solvency checks passed, a request that
would breach the utilization cap is rejected with `ExceedsMaxUtilization` —
whatever its due date says. -/
theorem fundLoan_exceeds_util {cfg : Config} {now : Nat} {caller : Address} {s : PoolState}
    {p : FundLoanParams}
    (hver : cfg.isVerifiedBusiness caller = true)
    (hnonce : s.usedNonces p.nonce = false)
    (hsig : cfg.recover (msgOf cfg p) p.signature = cfg.oracle)
    (hfees : s.accumulatedFees ≤ s.balance)
    (hover : s.totalActiveLoans + p.amount > totalAssets s * s.maxUtilizationBps / 10000) :
    fundLoan cfg now caller s p = Except.error Err.ExceedsMaxUtilization := by
  simp only [totalAssets] at hover
  simp only [fundLoan, totalAssets]
  rw [if_neg (by simp [hver]), if_neg (by simp [hnonce]), if_neg (by simp [hsig]),
    if_neg (Nat.not_lt.mpr hfees), if_pos hover]

/-- With nonce, signature, fee-solvency and both capacity checks passed, a
request whose due date has passed is rejected with `InvoiceExpired`. -/
theorem fundLoan_expired {cfg : Config} {now : Nat} {caller : Address} {s : PoolState}
    {p : FundLoanParams}
    (hver : cfg.isVerifiedBusiness caller = true)
    (hnonce : s.usedNonces p.nonce = false)
    (hsig : cfg.recover (msgOf cfg p) p.signature = cfg.oracle)
    (hfees : s.accumulatedFees ≤ s.balance)
    (hcap : s.totalActiveLoans + p.amount ≤ totalAssets s * s.maxUtilizationBps / 10000)
    (hliq : p.amount ≤ s.balance - s.accumulatedFees)
    (hdue : p.dueDate ≤ now) :
    fundLoan cfg now caller s p = Except.error Err.InvoiceExpired := by
  simp only [totalAssets] at hcap
  simp only [fundLoan, totalAssets]
  rw [if_neg (by simp [hver]), if_neg (by simp [hnonce]), if_neg (by simp [hsig]),
    if_neg (Nat.not_lt.mpr hfees), if_neg (Nat.not_lt.mpr hcap), if_neg (Nat.not_lt.mpr hliq),
    if_pos hdue]

/-! Concrete scenario of spec section 8, used by witnesses: an LP deposits
1,000,000, a 400,000 loan is funded at 400 bps expected yield, the 416,000
repayment is deposited, and the loan is repaid with 16,000 actual yield. -/

/-- Concrete environment: oracle identity 10, pool address 3, a recovery
function that always returns the oracle (i.e. every signature verifies), and
every caller KYB-verified. -/
def cfgS : Config :=
  { oracle := 10, poolAddr := 3, recover := fun _ _ => 10
    isVerifiedBusiness := fun _ => true }

/-- A tampered environment whose recovery never returns the oracle: every
signature is invalid. -/
def cfgBad : Config :=
  { oracle := 10, poolAddr := 3, recover := fun _ _ => 99
    isVerifiedBusiness := fun _ => true }

/-- The scenario funding request: 400,000 against fingerprint 77, due at
time 100, risk 25, 400 bps, nonce 7. -/
def pS : FundLoanParams :=
  { documentHash := 77, publicMetadataURI := "ipfs", amount := 400000, dueDate := 100
    seller := 20, riskScore := 25, expectedYieldBps := 400, nonce := 7, signature := 0 }

/-- The same request already expired at call time 50. -/
def pE : FundLoanParams := { pS with dueDate := 10 }

/-- Pool after the LP deposited 1,000,000 into the fresh pool. -/
def sS1 : PoolState :=
  match deposit PoolState.init 5 1000000 with
  | .ok r => r.2
  | .error _ => PoolState.init

/-- Pool after funding the 400,000 loan (token id 1) at time 50. -/
def sS2 : PoolState :=
  match fundLoan cfgS 50 20 sS1 pS with
  | .ok r => r.2
  | .error _ => sS1

/-- Pool after the oracle deposited the 416,000 repayment. -/
def sS3 : PoolState :=
  match depositRepayment cfgS 10 sS2 416000 with
  | .ok s => s
  | .error _ => sS2

/-- Pool after `repayLoan(1, 16000)` at `protocolFeeBps = 1000`. -/
def sS4 : PoolState :=
  match repayLoan cfgS 10 sS3 1 16000 with
  | .ok s => s
  | .error _ => sS3

/-- C1 (amended): a `fundLoan` whose nonce is already in the used set fails
with `NonceAlreadyUsed` (the spec's `NonceReused`) before any later check; a
SUCCESSFUL call consumes its nonce, so a second call with the same nonce —
regardless of every other field — then always fails with `NonceAlreadyUsed`.
But EVM revert semantics roll nonce consumption back together with the rest
of a failed call's effects, so a first call that itself failed leaves the
nonce unconsumed and the pool state unchanged. -/
theorem nonce_single_use_amended :
    (∀ cfg now caller s p, cfg.isVerifiedBusiness caller = true →
      s.usedNonces p.nonce = true →
      fundLoan cfg now caller s p = Except.error Err.NonceAlreadyUsed)
    ∧ (∀ cfg now caller s p t s1, fundLoan cfg now caller s p = Except.ok (t, s1) →
        s1.usedNonces p.nonce = true ∧
        ∀ now2 caller2 p2, cfg.isVerifiedBusiness caller2 = true → p2.nonce = p.nonce →
          fundLoan cfg now2 caller2 s1 p2 = Except.error Err.NonceAlreadyUsed)
    ∧ (∀ cfg now caller s p e, (txFundLoan cfg now caller s p).2 = Except.error e →
        (txFundLoan cfg now caller s p).1 = s) := by
  refine ⟨fun cfg now caller s p hv hu => fundLoan_nonce_reuse hv hu, ?_, ?_⟩
  · intro cfg now caller s p t s1 h
    obtain ⟨_, _, _, _, _, _, _, _, _, _, _, _, _, _, _, hpost⟩ := fundLoan_ok_elim h
    subst hpost
    have hU : (fundLoanPost cfg now s p).usedNonces p.nonce = true := by
      simp [fundLoanPost]
    refine ⟨hU, fun now2 caller2 p2 hv2 hn2 => ?_⟩
    exact fundLoan_nonce_reuse hv2 (by rw [hn2]; exact hU)
  · intro cfg now caller s p e h
    unfold txFundLoan at h ⊢
    rcases hf : fundLoan cfg now caller s p with e2 | ⟨tk, s1x⟩
    · rfl
    · rw [hf] at h
      simp only [] at h
      exact Except.noConfusion h

/-- Witness for the amended C1, at the concrete scenario: the successful
funding consumed nonce 7, a retry with the same nonce fails with the nonce
error whatever the caller, and a failed call leaves the state unchanged. -/
theorem nonce_single_use_amended_witness :
    (sS2.usedNonces pS.nonce = true ∧
      fundLoan cfgS 60 21 sS2 pS = Except.error Err.NonceAlreadyUsed) ∧
    fundLoan cfgS 60 21 sS2 pS = Except.error Err.NonceAlreadyUsed ∧
    (txFundLoan cfgBad 50 20 sS1 pS).1 = sS1 := by
  have h2 := nonce_single_use_amended.2.1 cfgS 50 20 sS1 pS 1 sS2 rfl
  have h1 := nonce_single_use_amended.1 cfgS 60 21 sS2 pS rfl h2.1
  have h3 := nonce_single_use_amended.2.2 cfgBad 50 20 sS1 pS Err.InvalidSignature rfl
  exact ⟨⟨h2.1, h2.2 60 21 pS rfl rfl⟩, h1, h3⟩

/-- C1 counterexample: with an invalid signature the first call fails with
`InvalidSignature` after the nonce-marking line; since the revert rolls the
marking back, an identical second call fails with `InvalidSignature` again —
not with the nonce error the claim requires. -/
theorem nonce_rollback_counterexample :
    (txFundLoan cfgBad 50 20 sS1 pS).2 = Except.error Err.InvalidSignature ∧
    (txFundLoan cfgBad 50 20 ((txFundLoan cfgBad 50 20 sS1 pS).1) pS).2
      = Except.error Err.InvalidSignature ∧
    (txFundLoan cfgBad 50 20 ((txFundLoan cfgBad 50 20 sS1 pS).1) pS).2
      ≠ Except.error Err.NonceAlreadyUsed := by
  refine ⟨rfl, rfl, ?_⟩
  intro h
  exact Err.noConfusion (Except.error.inj h)

/-- C3: after every successful `fundLoan`, the post-state satisfies
`totalActiveLoans <= totalAssets() * maxUtilizationBps / 10000`; and a call
that would breach the cap (its earlier checks passing) is rejected with
`ExceedsMaxUtilization`, so no sequence of fundings can violate the cap. -/
theorem utilization_cap_invariant :
    (∀ cfg now caller s p t s1, fundLoan cfg now caller s p = Except.ok (t, s1) →
      s1.totalActiveLoans ≤ totalAssets s1 * s1.maxUtilizationBps / 10000)
    ∧ (∀ cfg now caller s p, cfg.isVerifiedBusiness caller = true →
        s.usedNonces p.nonce = false →
        cfg.recover (msgOf cfg p) p.signature = cfg.oracle →
        s.accumulatedFees ≤ s.balance →
        s.totalActiveLoans + p.amount > totalAssets s * s.maxUtilizationBps / 10000 →
        fundLoan cfg now caller s p = Except.error Err.ExceedsMaxUtilization) := by
  constructor
  · intro cfg now caller s p t s1 h
    obtain ⟨_, _, _, hfees, hcap, hliq, _, _, _, _, _, _, _, _, _, hpost⟩ := fundLoan_ok_elim h
    subst hpost
    have hTA : totalAssets (fundLoanPost cfg now s p) = totalAssets s :=
      totalAssets_fundLoanPost hfees hliq
    have hL : (fundLoanPost cfg now s p).totalActiveLoans = s.totalActiveLoans + p.amount := rfl
    have hM : (fundLoanPost cfg now s p).maxUtilizationBps = s.maxUtilizationBps := rfl
    rw [hTA, hL, hM]
    exact hcap
  · intro cfg now caller s p hv hn hsig hfees hover
    exact fundLoan_exceeds_util hv hn hsig hfees hover

/-- Witness for C3 at the concrete scenario: the cap holds after the
successful 400,000 funding, and an over-cap request against the empty pool
is rejected with `ExceedsMaxUtilization`. -/
theorem utilization_cap_invariant_witness :
    sS2.totalActiveLoans ≤ totalAssets sS2 * sS2.maxUtilizationBps / 10000 ∧
    fundLoan cfgS 50 20 PoolState.init pS = Except.error Err.ExceedsMaxUtilization := by
  constructor
  · exact utilization_cap_invariant.1 cfgS 50 20 sS1 pS 1 sS2 rfl
  · exact utilization_cap_invariant.2 cfgS 50 20 PoolState.init pS rfl rfl rfl
      (by decide) (by decide)

/-- C5 (amended): the capacity checks run BEFORE the expiry check.  A
request passing the nonce and signature checks that would breach the
utilization cap fails with `ExceedsMaxUtilization` even when its due date
has already passed; only when both capacity checks pass does an expired
request fail with `InvoiceExpired`. -/
theorem capacity_checks_before_expiry :
    (∀ cfg now caller s p, cfg.isVerifiedBusiness caller = true →
      s.usedNonces p.nonce = false →
      cfg.recover (msgOf cfg p) p.signature = cfg.oracle →
      s.accumulatedFees ≤ s.balance →
      s.totalActiveLoans + p.amount > totalAssets s * s.maxUtilizationBps / 10000 →
      p.dueDate ≤ now →
      fundLoan cfg now caller s p = Except.error Err.ExceedsMaxUtilization)
    ∧ (∀ cfg now caller s p, cfg.isVerifiedBusiness caller = true →
        s.usedNonces p.nonce = false →
        cfg.recover (msgOf cfg p) p.signature = cfg.oracle →
        s.accumulatedFees ≤ s.balance →
        s.totalActiveLoans + p.amount ≤ totalAssets s * s.maxUtilizationBps / 10000 →
        p.amount ≤ s.balance - s.accumulatedFees →
        p.dueDate ≤ now →
        fundLoan cfg now caller s p = Except.error Err.InvoiceExpired) := by
  constructor
  · intro cfg now caller s p hv hn hsig hfees hover _
    exact fundLoan_exceeds_util hv hn hsig hfees hover
  · intro cfg now caller s p hv hn hsig hfees hcap hliq hdue
    exact fundLoan_expired hv hn hsig hfees hcap hliq hdue

/-- Witness for the amended C5: the expired over-cap request gets the
capacity error on the empty pool, and the expired request gets
`InvoiceExpired` on the funded pool where capacity is fine. -/
theorem capacity_checks_before_expiry_witness :
    fundLoan cfgS 50 20 PoolState.init pE = Except.error Err.ExceedsMaxUtilization ∧
    fundLoan cfgS 50 20 sS1 pE = Except.error Err.InvoiceExpired := by
  constructor
  · exact capacity_checks_before_expiry.1 cfgS 50 20 PoolState.init pE rfl rfl rfl
      (by decide) (by decide) (by decide)
  · exact capacity_checks_before_expiry.2 cfgS 50 20 sS1 pE rfl rfl rfl
      (by decide) (by decide) (by decide) (by decide)

/-- C5 counterexample: at call time 50 the request `pE` (due date 10, so
`dueDate <= now`) passes the nonce and signature checks on the empty pool
but exceeds the utilization cap; the code answers `ExceedsMaxUtilization`,
not the `InvoiceExpired` the claim requires. -/
theorem expiry_order_counterexample :
    pE.dueDate ≤ 50 ∧
    PoolState.init.usedNonces pE.nonce = false ∧
    cfgS.recover (msgOf cfgS pE) pE.signature = cfgS.oracle ∧
    fundLoan cfgS 50 20 PoolState.init pE = Except.error Err.ExceedsMaxUtilization ∧
    fundLoan cfgS 50 20 PoolState.init pE ≠ Except.error Err.InvoiceExpired := by
  refine ⟨by decide, rfl, rfl, rfl, ?_⟩
  intro h
  exact Err.noConfusion (Except.error.inj h)

/-- C10: every successful `fundLoan` leaves `totalAssets()` unchanged — the
idle balance drops by exactly the funded amount while `totalActiveLoans`
rises by the same amount, `accumulatedFees` and the share supply are
untouched, so both conversion rates are identical before and after. -/
theorem fundLoan_totalAssets_frame :
    ∀ cfg now caller s p t s1, fundLoan cfg now caller s p = Except.ok (t, s1) →
      totalAssets s1 = totalAssets s ∧
      s1.balance + p.amount = s.balance ∧
      s1.totalActiveLoans = s.totalActiveLoans + p.amount ∧
      s1.accumulatedFees = s.accumulatedFees ∧
      s1.totalSupply = s.totalSupply ∧
      (∀ x, convertToShares s1 x = convertToShares s x) ∧
      (∀ x, convertToAssets s1 x = convertToAssets s x) := by
  intro cfg now caller s p t s1 h
  obtain ⟨_, _, _, hfees, hcap, hliq, _, _, _, _, _, _, _, _, _, hpost⟩ := fundLoan_ok_elim h
  subst hpost
  have hTA : totalAssets (fundLoanPost cfg now s p) = totalAssets s :=
    totalAssets_fundLoanPost hfees hliq
  refine ⟨hTA, ?_, rfl, rfl, rfl, ?_, ?_⟩
  · simp only [fundLoanPost]
    omega
  · intro x
    show (if s.totalSupply = 0 then x
        else x * s.totalSupply / totalAssets (fundLoanPost cfg now s p)) =
      convertToShares s x
    rw [hTA]
    rfl
  · intro x
    show (if s.totalSupply = 0 then x
        else x * totalAssets (fundLoanPost cfg now s p) / s.totalSupply) =
      convertToAssets s x
    rw [hTA]
    rfl

/-- Witness for C10 at the concrete funding: `totalAssets` stays 1,000,000
across the 400,000 funding and the conversion rates are unchanged. -/
theorem fundLoan_totalAssets_frame_witness :
    totalAssets sS2 = totalAssets sS1 ∧
    sS2.balance + pS.amount = sS1.balance ∧
    convertToShares sS2 123456 = convertToShares sS1 123456 := by
  have h := fundLoan_totalAssets_frame cfgS 50 20 sS1 pS 1 sS2 rfl
  exact ⟨h.1, h.2.1, h.2.2.2.2.2.1 123456⟩

/-- When the oracle calls `repayLoan` on a loan that is not active, the call
fails with `LoanNotActive` (and, errors carrying no state, changes nothing). -/
theorem repay_not_active {cfg : Config} {s : PoolState} {tokenId y : Nat}
    (h : (s.loans tokenId).isActive = false) :
    repayLoan cfg cfg.oracle s tokenId y = Except.error Err.LoanNotActive := by
  unfold repayLoan
  rw [if_neg (by simp), if_pos (by simp [h])]

/-- Pool after burning the repaid invoice NFT (token id 1). -/
def sS5 : PoolState :=
  match burnRepaidInvoice cfgS 10 sS4 1 with
  | .ok s => s
  | .error _ => sS4

/-- C8 (amended): `repayLoan` on an active loan deactivates it, marks the
NFT repaid, releases exactly the loan's principal from `totalActiveLoans`
and accrues exactly `floor(actualYield * protocolFeeBps / 10000)` of fees,
touching neither the idle balance nor the share supply; on a non-active loan
it fails with `LoanNotActive` producing no state change.  In the concrete
spec scenario the fee is 1,600 and the active principal drops to 0 — but
`totalAssets()` ends at 1,014,400 (the deposited 1,016,000 minus the 1,600
accrued fee), not at the 1,016,000 the original claim states. -/
theorem repay_accounting_amended :
    (∀ cfg caller s tokenId y s1, repayLoan cfg caller s tokenId y = Except.ok s1 →
      (s.loans tokenId).isActive = true ∧
      (s1.loans tokenId).isActive = false ∧
      (s1.nft.invoices tokenId).isRepaid = true ∧
      s1.totalActiveLoans + (s.loans tokenId).principal = s.totalActiveLoans ∧
      s1.accumulatedFees = s.accumulatedFees + y * s.protocolFeeBps / 10000 ∧
      s1.balance = s.balance ∧ s1.totalSupply = s.totalSupply)
    ∧ (∀ cfg s tokenId y, (s.loans tokenId).isActive = false →
        repayLoan cfg cfg.oracle s tokenId y = Except.error Err.LoanNotActive)
    ∧ (sS4.accumulatedFees = sS3.accumulatedFees + 1600 ∧
       sS4.totalActiveLoans = 0 ∧ totalAssets sS4 = 1014400) := by
  refine ⟨?_, fun cfg s tokenId y h => repay_not_active h, rfl, rfl, rfl⟩
  intro cfg caller s tokenId y s1 h
  obtain ⟨_, hact, hple, _, _, hpost⟩ := repayLoan_ok_elim h
  subst hpost
  refine ⟨hact, by simp [repayPost], by simp [repayPost], ?_, rfl, rfl, rfl⟩
  show s.totalActiveLoans - (s.loans tokenId).principal + (s.loans tokenId).principal
    = s.totalActiveLoans
  omega

/-- Witness for the amended C8, at the concrete scenario: the successful
repayment and a rejected second repayment of the now-inactive loan. -/
theorem repay_accounting_amended_witness :
    ((sS4.loans 1).isActive = false ∧
      sS4.totalActiveLoans + (sS3.loans 1).principal = sS3.totalActiveLoans ∧
      sS4.accumulatedFees = sS3.accumulatedFees + 16000 * sS3.protocolFeeBps / 10000) ∧
    repayLoan cfgS cfgS.oracle sS4 1 5 = Except.error Err.LoanNotActive := by
  have h := repay_accounting_amended.1 cfgS 10 sS3 1 16000 sS4 rfl
  exact ⟨⟨h.2.1, h.2.2.2.1, h.2.2.2.2.1⟩, repay_accounting_amended.2.1 cfgS sS4 1 5 rfl⟩

/-- C8 counterexample: running the spec's own scenario (deposit 1,000,000;
fund 400,000; deposit the 416,000 repayment; repay with yield 16,000 at
`protocolFeeBps = 1000`), `totalAssets()` is 1,014,400 — not the 1,016,000
the claim states — because `totalAssets()` deducts the 1,600 accrued fee. -/
theorem repay_totalAssets_counterexample :
    sS4.accumulatedFees = 1600 ∧ sS4.totalActiveLoans = 0 ∧
    sS4.balance = 1016000 ∧ totalAssets sS4 = 1014400 ∧ (1014400 : Nat) ≠ 1016000 := by
  exact ⟨rfl, rfl, rfl, rfl, by decide⟩

/-- C4 (amended): the fingerprint mapping tracks a loan while its NFT exists
un-burned, not only while the loan is Active: `repayLoan` leaves the mapping
untouched, so a Repaid-but-not-burned loan still reports
`isDocumentFinanced = true`, and exactly `burnRepaidInvoice` clears the
entry, after which `isDocumentFinanced` is false. -/
theorem fingerprint_cleared_on_burn :
    (∀ cfg caller s tokenId y s1, repayLoan cfg caller s tokenId y = Except.ok s1 →
      ∀ h2, s1.nft.documentHashToTokenId h2 = s.nft.documentHashToTokenId h2)
    ∧ (∀ cfg caller s tokenId s1, burnRepaidInvoice cfg caller s tokenId = Except.ok s1 →
        s1.nft.isDocumentFinanced ((s.nft.invoices tokenId).documentHash) = false) := by
  constructor
  · intro cfg caller s tokenId y s1 h h2
    obtain ⟨_, _, _, _, _, hpost⟩ := repayLoan_ok_elim h
    subst hpost
    rfl
  · intro cfg caller s tokenId s1 h
    obtain ⟨_, _, _, _, hpost⟩ := burnRepaid_ok_elim h
    subst hpost
    simp [NFTState.isDocumentFinanced]

/-- Witness for the amended C4, at the concrete scenario: repayment keeps
fingerprint 77 financed; burning then clears it. -/
theorem fingerprint_cleared_on_burn_witness :
    sS4.nft.documentHashToTokenId 77 = sS3.nft.documentHashToTokenId 77 ∧
    sS5.nft.isDocumentFinanced ((sS4.nft.invoices 1).documentHash) = false := by
  exact ⟨fingerprint_cleared_on_burn.1 cfgS 10 sS3 1 16000 sS4 rfl 77,
    fingerprint_cleared_on_burn.2 cfgS 10 sS4 1 sS5 rfl⟩

/-- C4 counterexample: in the concrete scenario state after `repayLoan` and
before the burn, loan 1 is Repaid (not active, NFT marked repaid, token
still owned) with fingerprint 77 — and `isDocumentFinanced(77)` is still
true, where the claim requires false. -/
theorem repaid_still_financed_counterexample :
    (sS4.loans 1).isActive = false ∧
    (sS4.nft.invoices 1).isRepaid = true ∧
    sS4.nft.owners 1 ≠ 0 ∧
    (sS4.loans 1).documentHash = 77 ∧
    sS4.nft.isDocumentFinanced 77 = true := by
  exact ⟨rfl, rfl, by decide, rfl, rfl⟩

/-- A small nonempty pool used by the rounding witness: 10 idle assets
against 4 shares. -/
def sW : PoolState :=
  { balance := 10, totalSupply := 4, shareBal := fun _ => 0, allow := fun _ _ => 0
    maxUtilizationBps := 9000, protocolFeeBps := 1000, totalActiveLoans := 0
    accumulatedFees := 0, usedNonces := fun _ => false, loans := fun _ => LoanRec.empty
    nft := NFTState.init }

/-- Witness for C6: the empty-pool 1:1 case on the fresh pool, and all four
rounded conversions on the 10-assets/4-shares pool. -/
theorem preview_rounding_witness :
    (previewDeposit PoolState.init 5 = 5 ∧ previewMint PoolState.init 5 = 5 ∧
      previewWithdraw PoolState.init 5 = 5 ∧ previewRedeem PoolState.init 5 = 5) ∧
    previewDeposit sW 7 = ⌊((7 * sW.totalSupply : ℕ) : ℚ) / ((totalAssets sW : ℕ) : ℚ)⌋₊ ∧
    previewRedeem sW 7 = ⌊((7 * totalAssets sW : ℕ) : ℚ) / ((sW.totalSupply : ℕ) : ℚ)⌋₊ ∧
    previewMint sW 7 = ⌈((7 * totalAssets sW : ℕ) : ℚ) / ((sW.totalSupply : ℕ) : ℚ)⌉₊ ∧
    previewWithdraw sW 7 = ⌈((7 * sW.totalSupply : ℕ) : ℚ) / ((totalAssets sW : ℕ) : ℚ)⌉₊ := by
  refine ⟨(preview_rounding PoolState.init 5 5).1 rfl, ?_⟩
  have h := (preview_rounding sW 7 7).2 (by decide) (by decide)
  exact ⟨h.1, h.2.1, h.2.2.1, h.2.2.2⟩

/-- Cross-multiplied comparison of two pool states' conversion rates: when
`totalAssets * supply'` does not exceed `totalAssets' * supply`, converting
any share amount pays at least as much in the second state. -/
theorem convertToAssets_le_of_cross {s s1 : PoolState}
    (hS : s.totalSupply ≠ 0) (hS1 : s1.totalSupply ≠ 0)
    (hcross : totalAssets s * s1.totalSupply ≤ totalAssets s1 * s.totalSupply) (c : Nat) :
    convertToAssets s c ≤ convertToAssets s1 c := by
  rw [convertToAssets, convertToAssets, if_neg hS, if_neg hS1]
  apply div_le_div_cross (Nat.pos_of_ne_zero hS) (Nat.pos_of_ne_zero hS1)
  calc c * totalAssets s * s1.totalSupply = c * (totalAssets s * s1.totalSupply) := by ring
    _ ≤ c * (totalAssets s1 * s.totalSupply) := Nat.mul_le_mul_left c hcross
    _ = c * totalAssets s1 * s.totalSupply := by ring

/-- C9 (amended): under deposits and withdrawals with no loan activity the
share price never DECREASES — round-down minting and round-up burning may
strictly increase it, so it is not constant as claimed — and a repayment
with positive actual yield (preceded by its repayment deposit) strictly
increases the exact share price `totalAssets/totalShares`, hence never
decreases any `convertToAssets` quotation.  The withdrawal statement
requires the pool to retain some shares, since emptying the supply resets
the conversion to the 1:1 fallback. -/
theorem share_price_monotone_amended :
    (∀ s receiver assets sh s1 c, s.accumulatedFees ≤ s.balance →
      deposit s receiver assets = Except.ok (sh, s1) →
      convertToAssets s c ≤ convertToAssets s1 c)
    ∧ (∀ s caller receiver owner_ assets sh s1 c,
        withdraw s caller receiver owner_ assets = Except.ok (sh, s1) →
        s1.totalSupply ≠ 0 →
        convertToAssets s c ≤ convertToAssets s1 c)
    ∧ (∀ cfg caller s tokenId y s1 s2, 0 < y → s.protocolFeeBps ≤ 5000 →
        s.accumulatedFees ≤ s.balance → 0 < s.totalSupply →
        depositRepayment cfg caller s ((s.loans tokenId).principal + y) = Except.ok s1 →
        repayLoan cfg caller s1 tokenId y = Except.ok s2 →
        s2.totalSupply = s.totalSupply ∧
        (totalAssets s : ℚ) / (s.totalSupply : ℚ)
          < (totalAssets s2 : ℚ) / (s2.totalSupply : ℚ) ∧
        (∀ c, convertToAssets s c ≤ convertToAssets s2 c)) := by
  refine ⟨?_, ?_, ?_⟩
  · -- deposits only raise the price
    intro s receiver assets sh s1 c hFB h
    obtain ⟨hA, _, hgd, hsh, hbal, hsup, hL, hF, _, _, _, _, _⟩ := deposit_ok_elim h
    by_cases hS : s.totalSupply = 0
    · rw [convertToAssets, if_pos hS]
      have hm : sh = assets := by rw [hsh, previewDeposit, convertToShares, if_pos hS]
      have hS1 : s1.totalSupply = assets := by rw [hsup, hS, hm]; omega
      have hTa : assets ≤ totalAssets s1 := by
        simp only [totalAssets, hbal, hL, hF]
        omega
      rw [convertToAssets, if_neg (by rw [hS1]; exact hA), hS1,
        Nat.le_div_iff_mul_le (Nat.pos_of_ne_zero hA)]
      exact Nat.mul_le_mul_left c hTa
    · have hT : totalAssets s ≠ 0 := by
        rcases hgd with h0 | h0
        · exact absurd h0 hS
        · exact h0
      have hm : sh = assets * s.totalSupply / totalAssets s := by
        rw [hsh, previewDeposit, convertToShares, if_neg hS]
      have hT1 : totalAssets s1 = totalAssets s + assets := by
        simp only [totalAssets, hbal, hL, hF]
        omega
      have hkey : totalAssets s * s1.totalSupply ≤ totalAssets s1 * s.totalSupply := by
        rw [hT1, hsup, hm]
        have hdm : totalAssets s * (assets * s.totalSupply / totalAssets s)
            ≤ assets * s.totalSupply := Nat.mul_div_le _ _
        calc totalAssets s * (s.totalSupply + assets * s.totalSupply / totalAssets s)
            = totalAssets s * s.totalSupply
              + totalAssets s * (assets * s.totalSupply / totalAssets s) := by ring
          _ ≤ totalAssets s * s.totalSupply + assets * s.totalSupply := by omega
          _ = (totalAssets s + assets) * s.totalSupply := by ring
      have hS1 : s1.totalSupply ≠ 0 := by
        rw [hsup]
        intro h0
        omega
      exact convertToAssets_le_of_cross hS hS1 hkey c
  · -- withdrawals only raise the price, while shares remain
    intro s caller receiver owner_ assets sh s1 c h hS1ne
    obtain ⟨hA, _, hFB, hliq, hgd, hsh, hshS, hbal, hsup, hL, hF, _, _, _, _, _⟩ :=
      withdraw_ok_elim h
    have hS : s.totalSupply ≠ 0 := by
      intro h0
      rw [hsh, previewWithdraw, if_pos h0] at hshS
      omega
    have hT : totalAssets s ≠ 0 := by
      rcases hgd with h0 | h0
      · exact absurd h0 hS
      · exact h0
    have hmge : assets * s.totalSupply ≤ totalAssets s * sh := by
      rw [hsh, previewWithdraw, if_neg hS]
      have h1 := Nat.div_add_mod (assets * s.totalSupply + totalAssets s - 1) (totalAssets s)
      have h2 : (assets * s.totalSupply + totalAssets s - 1) % totalAssets s < totalAssets s :=
        Nat.mod_lt _ (Nat.pos_of_ne_zero hT)
      omega
    have hkey : totalAssets s * s1.totalSupply ≤ totalAssets s1 * s.totalSupply := by
      have hT1 : totalAssets s1 = totalAssets s - assets := by
        simp only [totalAssets, hbal, hL, hF]
        omega
      rw [hT1, hsup, Nat.mul_sub_left_distrib, Nat.mul_sub_right_distrib]
      exact Nat.sub_le_sub_left hmge _
    exact convertToAssets_le_of_cross hS hS1ne hkey c
  · -- a repayment with positive yield strictly raises the exact price
    intro cfg caller s tokenId y s1 s2 hy hpf hFB hS h1 h2
    obtain ⟨_, hd⟩ := depositRepayment_ok_elim h1
    subst hd
    obtain ⟨_, hact, hple, _, _, hpost⟩ := repayLoan_ok_elim h2
    subst hpost
    have hfee : y * s.protocolFeeBps / 10000 < y := by
      rw [Nat.div_lt_iff_lt_mul (by norm_num)]
      calc y * s.protocolFeeBps ≤ y * 5000 := Nat.mul_le_mul_left y hpf
        _ < y * 10000 := mul_lt_mul_of_pos_left (by norm_num) hy
    have hlt : totalAssets s <
        totalAssets (repayPost { s with balance :=
          s.balance + ((s.loans tokenId).principal + y) } tokenId y) := by
      simp only [totalAssets, repayPost]
      omega
    have hsup2 : (repayPost { s with balance :=
        s.balance + ((s.loans tokenId).principal + y) } tokenId y).totalSupply
        = s.totalSupply := rfl
    refine ⟨hsup2, ?_, ?_⟩
    · rw [hsup2]
      rw [div_lt_div_iff_of_pos_right (by exact_mod_cast hS)]
      exact_mod_cast hlt
    · intro c
      rw [convertToAssets, convertToAssets, if_neg (by omega),
        if_neg (by rw [hsup2]; omega)]
      rw [hsup2]
      exact Nat.div_le_div_right (Nat.mul_le_mul_left c (Nat.le_of_lt hlt))

/-- Pool after depositing 1 extra unit into the post-scenario pool: the
deposit mints zero shares (round-down), donating the unit to the LPs. -/
def sS4b : PoolState :=
  match deposit sS4 5 1 with
  | .ok r => r.2
  | .error _ => sS4

/-- Pool after withdrawing 100,000 from the post-scenario pool. -/
def sS4w : PoolState :=
  match withdraw sS4 5 9 5 100000 with
  | .ok r => r.2
  | .error _ => sS4

/-- A large-pool funding request: 5,000,000,000,000 against fingerprint 88,
nonce 11, used by the repay-non-strictness counterexample. -/
def pB : FundLoanParams :=
  { documentHash := 88, publicMetadataURI := "ipfs", amount := 5000000000000
    dueDate := 100, seller := 20, riskScore := 25, expectedYieldBps := 400
    nonce := 11, signature := 0 }

/-- Large pool: 10^13 deposited 1:1 into the fresh pool. -/
def sB1 : PoolState :=
  match deposit PoolState.init 5 10000000000000 with
  | .ok r => r.2
  | .error _ => PoolState.init

/-- Large pool after funding the 5·10^12 loan (token id 1) at time 50. -/
def sB2 : PoolState :=
  match fundLoan cfgS 50 20 sB1 pB with
  | .ok r => r.2
  | .error _ => sB1

/-- Large pool after the oracle deposited the principal plus a yield of 2. -/
def sB3 : PoolState :=
  match depositRepayment cfgS 10 sB2 ((sB2.loans 1).principal + 2) with
  | .ok s => s
  | .error _ => sB2

/-- Large pool after `repayLoan(1, 2)`: the fee floors to 0 and the 2 units
of yield are too small to move any floored share quotation. -/
def sB4 : PoolState :=
  match repayLoan cfgS 10 sB3 1 2 with
  | .ok s => s
  | .error _ => sB3

/-- A tiny funding request: 1 unit against fingerprint 99, nonce 12, used by
the withdrawal counterexample. -/
def pD : FundLoanParams :=
  { documentHash := 99, publicMetadataURI := "ipfs", amount := 1, dueDate := 100
    seller := 20, riskScore := 25, expectedYieldBps := 400, nonce := 12, signature := 0 }

/-- Tiny pool: 2 units deposited 1:1 into the fresh pool. -/
def sD1 : PoolState :=
  match deposit PoolState.init 5 2 with
  | .ok r => r.2
  | .error _ => PoolState.init

/-- Tiny pool after funding the 1-unit loan (token id 1) at time 50. -/
def sD2 : PoolState :=
  match fundLoan cfgS 50 20 sD1 pD with
  | .ok r => r.2
  | .error _ => sD1

/-- Tiny pool after the oracle deposited the 1-unit principal plus 2 yield. -/
def sD3 : PoolState :=
  match depositRepayment cfgS 10 sD2 3 with
  | .ok s => s
  | .error _ => sD2

/-- Tiny pool after `repayLoan(1, 2)`: 4 idle assets against 2 shares, share
price exactly 2, no fees (the fee on a yield of 2 floors to 0). -/
def sD4 : PoolState :=
  match repayLoan cfgS 10 sD3 1 2 with
  | .ok s => s
  | .error _ => sD3

/-- Tiny pool after withdrawing 3 of the 4 assets: the round-up burn takes
all 2 shares, emptying the supply with 1 unit of dust left behind. -/
def sD5 : PoolState :=
  match withdraw sD4 5 9 5 3 with
  | .ok r => r.2
  | .error _ => sD4

/-- C9 counterexample, refuting each part of the claim at concrete reachable
pools.  (1) Deposits do not keep the price constant: in the post-scenario
pool a deposit of 1 unit mints 0 shares and raises `convertToAssets` of one
whole (10^6-unit) share from 1,014,400 to 1,014,401.  (2) A repayment with
positive yield need not STRICTLY increase `convertToAssets(1 share)`: in the
10^13-share pool, repaying with yield 2 (fee floors to 0) leaves both the
1-unit and the 10^6-unit quotations exactly where they were.  (3) A
withdrawal can strictly DECREASE the quotation when it burns the entire
supply: emptying the price-2 tiny pool leaves 1 unit of dust, and the
empty-supply 1:1 fallback drops `convertToAssets 1` from 2 to 1. -/
theorem share_price_constant_counterexample :
    (deposit sS4 5 1 = Except.ok (0, sS4b) ∧
      convertToAssets sS4 1000000 = 1014400 ∧
      convertToAssets sS4b 1000000 = 1014401 ∧
      (1014401 : Nat) ≠ 1014400) ∧
    (depositRepayment cfgS 10 sB2 ((sB2.loans 1).principal + 2) = Except.ok sB3 ∧
      repayLoan cfgS 10 sB3 1 2 = Except.ok sB4 ∧
      (0 : Nat) < 2 ∧
      convertToAssets sB4 1 = convertToAssets sB2 1 ∧
      convertToAssets sB4 1000000 = convertToAssets sB2 1000000) ∧
    (withdraw sD4 5 9 5 3 = Except.ok (2, sD5) ∧
      convertToAssets sD4 1 = 2 ∧
      sD5.totalSupply = 0 ∧
      convertToAssets sD5 1 = 1 ∧
      (1 : Nat) < 2) := by
  exact ⟨⟨rfl, rfl, rfl, by decide⟩, ⟨rfl, rfl, by decide, rfl, rfl⟩,
    ⟨rfl, rfl, rfl, rfl, by decide⟩⟩


/-- Witness for the amended C9 at the concrete scenario: the 1-unit deposit
and the 100,000 withdrawal never lower the whole-share quotation, and the
scenario's repayment strictly raises the exact price above 1. -/
theorem share_price_monotone_amended_witness :
    convertToAssets sS4 1000000 ≤ convertToAssets sS4b 1000000 ∧
    convertToAssets sS4 1000000 ≤ convertToAssets sS4w 1000000 ∧
    (totalAssets sS2 : ℚ) / (sS2.totalSupply : ℚ)
      < (totalAssets sS4 : ℚ) / (sS4.totalSupply : ℚ) := by
  refine ⟨?_, ?_, ?_⟩
  · exact share_price_monotone_amended.1 sS4 5 1 0 sS4b 1000000 (by decide) rfl
  · exact share_price_monotone_amended.2.1 sS4 5 9 5 100000 98581 sS4w 1000000 rfl
      (by decide)
  · exact (share_price_monotone_amended.2.2 cfgS 10 sS2 1 16000 sS3 sS4 (by decide)
      (by decide) (by decide) (by decide) rfl rfl).2.1

/-- The inductive invariant tying the pool's loan table to the NFT
registry: every active loan is the one its fingerprint resolves to, token
ids stay within the minted range, resolved fingerprints point at existing
tokens storing that fingerprint, active loans sit on existing un-repaid
tokens, every existing token is resolved by its own stored fingerprint, and
stored fingerprints are nonzero. -/
structure Inv (s : PoolState) : Prop where
  act_map : ∀ t, (s.loans t).isActive = true →
    s.nft.documentHashToTokenId (s.loans t).documentHash = t
  act_le : ∀ t, (s.loans t).isActive = true → 0 < t ∧ t ≤ s.nft.tokenIdCounter
  map_le : ∀ h, s.nft.documentHashToTokenId h ≠ 0 →
    s.nft.documentHashToTokenId h ≤ s.nft.tokenIdCounter
  map_hash : ∀ h, s.nft.documentHashToTokenId h ≠ 0 →
    (s.nft.invoices (s.nft.documentHashToTokenId h)).documentHash = h
  map_own : ∀ h, s.nft.documentHashToTokenId h ≠ 0 →
    s.nft.owners (s.nft.documentHashToTokenId h) ≠ 0
  act_live : ∀ t, (s.loans t).isActive = true →
    (s.nft.invoices t).isRepaid = false ∧ s.nft.owners t ≠ 0
  own_map : ∀ t, s.nft.owners t ≠ 0 →
    s.nft.documentHashToTokenId (s.nft.invoices t).documentHash = t
  own_le : ∀ t, s.nft.owners t ≠ 0 → 0 < t ∧ t ≤ s.nft.tokenIdCounter
  own_hash : ∀ t, s.nft.owners t ≠ 0 → (s.nft.invoices t).documentHash ≠ 0

/-- The invariant holds in the freshly deployed pool. -/
theorem Inv_init : Inv PoolState.init := by
  constructor <;> intro x hx <;>
    simp [PoolState.init, NFTState.init, LoanRec.empty, InvoiceData.empty] at hx

/-- Operations that touch neither the loan table nor the NFT state preserve
the invariant. -/
theorem Inv_frame {s s1 : PoolState} (hl : s1.loans = s.loans) (hn : s1.nft = s.nft)
    (hI : Inv s) : Inv s1 := by
  cases hI with
  | mk a b c d e f g h i =>
    constructor <;> simp only [hl, hn]
    exacts [a, b, c, d, e, f, g, h, i]

/-- A successful `fundLoan` preserves the invariant: the fresh token id is
outside the live range, the fingerprint was unmapped, and the new loan,
token and mapping entry are installed consistently. -/
theorem Inv_fundLoanPost {cfg : Config} {now : Nat} {caller : Address} {s : PoolState}
    {p : FundLoanParams} {t : Nat} {s1 : PoolState} (hI : Inv s)
    (h : fundLoan cfg now caller s p = .ok (t, s1)) : Inv s1 := by
  obtain ⟨_, _, _, _, _, _, _, hpool, hdh, _, _, _, hguard, hfree, htk, hpost⟩ :=
    fundLoan_ok_elim h
  subst hpost
  constructor
  · intro t1 hact
    simp only [fundLoanPost, mintPost] at hact ⊢
    by_cases ht : t1 = s.nft.tokenIdCounter + 1
    · subst ht
      simp
    · rw [if_neg ht] at hact ⊢
      by_cases hh : (s.loans t1).documentHash = p.documentHash
      · exfalso
        have e1 := hI.act_map t1 hact
        rw [hh] at e1
        have e2 := hI.act_le t1 hact
        omega
      · rw [if_neg hh]
        exact hI.act_map t1 hact
  · intro t1 hact
    simp only [fundLoanPost, mintPost] at hact ⊢
    by_cases ht : t1 = s.nft.tokenIdCounter + 1
    · omega
    · rw [if_neg ht] at hact
      have := hI.act_le t1 hact
      omega
  · intro hsh hne
    simp only [fundLoanPost, mintPost] at hne ⊢
    by_cases hh : hsh = p.documentHash
    · rw [if_pos hh]
    · rw [if_neg hh] at hne ⊢
      have := hI.map_le hsh hne
      omega
  · intro hsh hne
    simp only [fundLoanPost, mintPost] at hne ⊢
    by_cases hh : hsh = p.documentHash
    · rw [if_pos hh] at hne ⊢
      simp [hh]
    · rw [if_neg hh] at hne ⊢
      have hle := hI.map_le hsh hne
      rw [if_neg (by omega)]
      exact hI.map_hash hsh hne
  · intro hsh hne
    simp only [fundLoanPost, mintPost] at hne ⊢
    by_cases hh : hsh = p.documentHash
    · rw [if_pos hh] at hne ⊢
      simp [hpool]
    · rw [if_neg hh] at hne ⊢
      have hle := hI.map_le hsh hne
      rw [if_neg (by omega)]
      exact hI.map_own hsh hne
  · intro t1 hact
    simp only [fundLoanPost, mintPost] at hact ⊢
    by_cases ht : t1 = s.nft.tokenIdCounter + 1
    · subst ht
      simp [hpool]
    · rw [if_neg ht] at hact
      rw [if_neg ht, if_neg ht]
      exact hI.act_live t1 hact
  · intro t1 hown
    simp only [fundLoanPost, mintPost] at hown ⊢
    by_cases ht : t1 = s.nft.tokenIdCounter + 1
    · subst ht
      simp
    · rw [if_neg ht] at hown
      rw [if_neg ht]
      have hom := hI.own_map t1 hown
      by_cases hh : (s.nft.invoices t1).documentHash = p.documentHash
      · exfalso
        rw [hh] at hom
        have := hI.own_le t1 hown
        omega
      · rw [if_neg hh]
        exact hom
  · intro t1 hown
    simp only [fundLoanPost, mintPost] at hown ⊢
    by_cases ht : t1 = s.nft.tokenIdCounter + 1
    · omega
    · rw [if_neg ht] at hown
      have := hI.own_le t1 hown
      omega
  · intro t1 hown
    simp only [fundLoanPost, mintPost] at hown ⊢
    by_cases ht : t1 = s.nft.tokenIdCounter + 1
    · subst ht
      simp [hdh]
    · rw [if_neg ht] at hown ⊢
      exact hI.own_hash t1 hown

/-- A successful `repayLoan` preserves the invariant: it only deactivates
one loan and flips its token's `isRepaid` flag, leaving every fingerprint
relationship intact. -/
theorem Inv_repayPost {cfg : Config} {caller : Address} {s : PoolState}
    {tokenId y : Nat} {s1 : PoolState} (hI : Inv s)
    (h : repayLoan cfg caller s tokenId y = .ok s1) : Inv s1 := by
  obtain ⟨_, hact, _, _, _, hpost⟩ := repayLoan_ok_elim h
  subst hpost
  have hhash : ∀ t2, ((repayPost s tokenId y).nft.invoices t2).documentHash
      = (s.nft.invoices t2).documentHash := by
    intro t2
    simp only [repayPost]
    by_cases ht : t2 = tokenId
    · subst ht
      rw [if_pos rfl]
    · rw [if_neg ht]
  constructor
  · intro t1 ha
    simp only [repayPost] at ha ⊢
    by_cases ht : t1 = tokenId
    · rw [if_pos ht] at ha
      simp at ha
    · rw [if_neg ht] at ha ⊢
      exact hI.act_map t1 ha
  · intro t1 ha
    simp only [repayPost] at ha ⊢
    by_cases ht : t1 = tokenId
    · rw [if_pos ht] at ha
      simp at ha
    · rw [if_neg ht] at ha
      exact hI.act_le t1 ha
  · intro hsh hne
    simp only [repayPost] at hne ⊢
    exact hI.map_le hsh hne
  · intro hsh hne
    have hh := hhash (s.nft.documentHashToTokenId hsh)
    simp only [repayPost] at hne hh ⊢
    rw [hh]
    exact hI.map_hash hsh hne
  · intro hsh hne
    simp only [repayPost] at hne ⊢
    exact hI.map_own hsh hne
  · intro t1 ha
    simp only [repayPost] at ha ⊢
    by_cases ht : t1 = tokenId
    · rw [if_pos ht] at ha
      simp at ha
    · rw [if_neg ht] at ha
      rw [if_neg ht]
      exact hI.act_live t1 ha
  · intro t1 hown
    have hh := hhash t1
    simp only [repayPost] at hown hh ⊢
    rw [hh]
    exact hI.own_map t1 hown
  · intro t1 hown
    simp only [repayPost] at hown ⊢
    exact hI.own_le t1 hown
  · intro t1 hown
    have hh := hhash t1
    simp only [repayPost] at hown hh ⊢
    rw [hh]
    exact hI.own_hash t1 hown

/-- A successful `burnRepaidInvoice` preserves the invariant: the burned
token was not an active loan, its fingerprint entry (which pointed at it) is
removed, and every other token's relationships are untouched. -/
theorem Inv_burnPost {cfg : Config} {caller : Address} {s : PoolState}
    {tokenId : Nat} {s1 : PoolState} (hI : Inv s)
    (h : burnRepaidInvoice cfg caller s tokenId = .ok s1) : Inv s1 := by
  obtain ⟨_, hinact, hownb, hrep, hpost⟩ := burnRepaid_ok_elim h
  subst hpost
  have hmapb : s.nft.documentHashToTokenId (s.nft.invoices tokenId).documentHash = tokenId :=
    hI.own_map tokenId hownb
  have hdistinct : ∀ t1, s.nft.owners t1 ≠ 0 → t1 ≠ tokenId →
      (s.nft.invoices t1).documentHash ≠ (s.nft.invoices tokenId).documentHash := by
    intro t1 ho hne hcontra
    have e1 := hI.own_map t1 ho
    rw [hcontra, hmapb] at e1
    exact hne e1.symm
  have hmapne : ∀ hsh, hsh ≠ (s.nft.invoices tokenId).documentHash →
      s.nft.documentHashToTokenId hsh ≠ 0 →
      s.nft.documentHashToTokenId hsh ≠ tokenId := by
    intro hsh hne h0 hcontra
    have := hI.map_hash hsh h0
    rw [hcontra] at this
    exact hne this.symm
  constructor
  · intro t1 ha
    simp only [] at ha ⊢
    have ht : t1 ≠ tokenId := by
      intro e
      rw [e] at ha
      rw [ha] at hinact
      exact Bool.noConfusion hinact
    have hhne : (s.loans t1).documentHash ≠ (s.nft.invoices tokenId).documentHash := by
      intro e
      have e1 := hI.act_map t1 ha
      rw [e, hmapb] at e1
      exact ht e1.symm
    rw [if_neg hhne]
    exact hI.act_map t1 ha
  · intro t1 ha
    exact hI.act_le t1 ha
  · intro hsh hne
    simp only [] at hne ⊢
    by_cases hh : hsh = (s.nft.invoices tokenId).documentHash
    · rw [if_pos hh] at hne
      exact absurd rfl hne
    · rw [if_neg hh] at hne ⊢
      exact hI.map_le hsh hne
  · intro hsh hne
    simp only [] at hne ⊢
    by_cases hh : hsh = (s.nft.invoices tokenId).documentHash
    · rw [if_pos hh] at hne
      exact absurd rfl hne
    · rw [if_neg hh] at hne ⊢
      rw [if_neg (hmapne hsh hh hne)]
      exact hI.map_hash hsh hne
  · intro hsh hne
    simp only [] at hne ⊢
    by_cases hh : hsh = (s.nft.invoices tokenId).documentHash
    · rw [if_pos hh] at hne
      exact absurd rfl hne
    · rw [if_neg hh] at hne ⊢
      rw [if_neg (hmapne hsh hh hne)]
      exact hI.map_own hsh hne
  · intro t1 ha
    have ht : t1 ≠ tokenId := by
      intro e
      rw [e] at ha
      rw [ha] at hinact
      exact Bool.noConfusion hinact
    simp only []
    rw [if_neg ht, if_neg ht]
    exact hI.act_live t1 ha
  · intro t1 hown
    simp only [] at hown ⊢
    have ht : t1 ≠ tokenId := by
      intro e
      rw [if_pos e] at hown
      exact hown rfl
    rw [if_neg ht] at hown
    rw [if_neg ht, if_neg (hdistinct t1 hown ht)]
    exact hI.own_map t1 hown
  · intro t1 hown
    simp only [] at hown ⊢
    have ht : t1 ≠ tokenId := by
      intro e
      rw [if_pos e] at hown
      exact hown rfl
    rw [if_neg ht] at hown
    exact hI.own_le t1 hown
  · intro t1 hown
    simp only [] at hown ⊢
    have ht : t1 ≠ tokenId := by
      intro e
      rw [if_pos e] at hown
      exact hown rfl
    rw [if_neg ht] at hown
    rw [if_neg ht]
    exact hI.own_hash t1 hown

/-- The pool's mutating entry points, the engine's operation alphabet. -/
inductive Op where
  | opDeposit (receiver : Address) (assets : Nat)
  | opMint (receiver : Address) (shares : Nat)
  | opWithdraw (caller receiver owner_ : Address) (assets : Nat)
  | opRedeem (caller receiver owner_ : Address) (shares : Nat)
  | opFundLoan (now : Nat) (caller : Address) (p : FundLoanParams)
  | opRepayLoan (caller : Address) (tokenId actualYield : Nat)
  | opDepositRepayment (caller : Address) (amount : Nat)
  | opBurnRepaidInvoice (caller : Address) (tokenId : Nat)
  | opWithdrawFees
  | opSetMaxUtilization (bps : Nat)
  | opSetProtocolFee (bps : Nat)

/-- Run one mutating operation against the pool, keeping only the state. -/
def applyOp (cfg : Config) (op : Op) (s : PoolState) : Except Err PoolState :=
  match op with
  | .opDeposit receiver assets => (deposit s receiver assets).map Prod.snd
  | .opMint receiver shares => (mint s receiver shares).map Prod.snd
  | .opWithdraw caller receiver owner_ assets =>
      (withdraw s caller receiver owner_ assets).map Prod.snd
  | .opRedeem caller receiver owner_ shares =>
      (redeem s caller receiver owner_ shares).map Prod.snd
  | .opFundLoan now caller p => (fundLoan cfg now caller s p).map Prod.snd
  | .opRepayLoan caller tokenId actualYield => repayLoan cfg caller s tokenId actualYield
  | .opDepositRepayment caller amount => depositRepayment cfg caller s amount
  | .opBurnRepaidInvoice caller tokenId => burnRepaidInvoice cfg caller s tokenId
  | .opWithdrawFees => withdrawFees s
  | .opSetMaxUtilization bps => setMaxUtilization s bps
  | .opSetProtocolFee bps => setProtocolFee s bps

/-- States of the pool reachable from deployment through successful calls;
a reverted call leaves the state where it was, so only `.ok` results step. -/
inductive Reachable (cfg : Config) : PoolState → Prop where
  | init : Reachable cfg PoolState.init
  | step {s s1 : PoolState} {op : Op} :
      Reachable cfg s → applyOp cfg op s = .ok s1 → Reachable cfg s1

/-- Every operation preserves the invariant. -/
theorem Inv_applyOp {cfg : Config} {s s1 : PoolState} {op : Op}
    (hI : Inv s) (h : applyOp cfg op s = .ok s1) : Inv s1 := by
  cases op with
  | opDeposit receiver assets =>
    simp only [applyOp] at h
    rcases hd : deposit s receiver assets with e | ⟨sh, s2⟩
    · rw [hd] at h; exact Except.noConfusion h
    · rw [hd] at h
      simp only [Except.map] at h
      injection h with h2
      subst h2
      obtain ⟨_, _, _, _, _, _, _, _, _, _, hl, hn, _⟩ := deposit_ok_elim hd
      exact Inv_frame hl hn hI
  | opMint receiver shares =>
    simp only [applyOp] at h
    rcases hd : mint s receiver shares with e | ⟨a, s2⟩
    · rw [hd] at h; exact Except.noConfusion h
    · rw [hd] at h
      simp only [Except.map] at h
      injection h with h2
      subst h2
      obtain ⟨_, _, _, _, _, _, _, hl, hn, _⟩ := mint_pool_ok_elim hd
      exact Inv_frame hl hn hI
  | opWithdraw caller receiver owner_ assets =>
    simp only [applyOp] at h
    rcases hd : withdraw s caller receiver owner_ assets with e | ⟨sh, s2⟩
    · rw [hd] at h; exact Except.noConfusion h
    · rw [hd] at h
      simp only [Except.map] at h
      injection h with h2
      subst h2
      obtain ⟨_, _, _, _, _, _, _, _, _, _, _, _, _, hl, hn, _⟩ := withdraw_ok_elim hd
      exact Inv_frame hl hn hI
  | opRedeem caller receiver owner_ shares =>
    simp only [applyOp] at h
    rcases hd : redeem s caller receiver owner_ shares with e | ⟨a, s2⟩
    · rw [hd] at h; exact Except.noConfusion h
    · rw [hd] at h
      simp only [Except.map] at h
      injection h with h2
      subst h2
      obtain ⟨_, _, _, _, _, _, _, _, _, _, _, _, hl, hn, _⟩ := redeem_ok_elim hd
      exact Inv_frame hl hn hI
  | opFundLoan now caller p =>
    simp only [applyOp] at h
    rcases hd : fundLoan cfg now caller s p with e | ⟨t, s2⟩
    · rw [hd] at h; exact Except.noConfusion h
    · rw [hd] at h
      simp only [Except.map] at h
      injection h with h2
      subst h2
      exact Inv_fundLoanPost hI hd
  | opRepayLoan caller tokenId actualYield =>
    exact Inv_repayPost hI h
  | opDepositRepayment caller amount =>
    obtain ⟨_, h2⟩ := depositRepayment_ok_elim h
    subst h2
    refine Inv_frame ?_ ?_ hI <;> rfl
  | opBurnRepaidInvoice caller tokenId =>
    exact Inv_burnPost hI h
  | opWithdrawFees =>
    simp only [applyOp, withdrawFees] at h
    split_ifs at h
    injection h with h2
    subst h2
    refine Inv_frame ?_ ?_ hI <;> rfl
  | opSetMaxUtilization bps =>
    simp only [applyOp, setMaxUtilization] at h
    split_ifs at h
    injection h with h2
    subst h2
    refine Inv_frame ?_ ?_ hI <;> rfl
  | opSetProtocolFee bps =>
    simp only [applyOp, setProtocolFee] at h
    split_ifs at h
    injection h with h2
    subst h2
    refine Inv_frame ?_ ?_ hI <;> rfl

/-- The invariant holds in every reachable pool state. -/
theorem Inv_of_Reachable {cfg : Config} {s : PoolState} (h : Reachable cfg s) : Inv s := by
  induction h with
  | init => exact Inv_init
  | step hr hs ih => exact Inv_applyOp ih hs

/-- An NFT mint against an already-mapped fingerprint fails with
`DocumentAlreadyFinanced` once the earlier validation passes. -/
theorem mint_doc_financed {n : NFTState} {now : Nat} {to_ : Address} {dh : B32}
    {amount dueDate : Nat} {seller : Address} {riskScore : Nat} {uri : String}
    (h1 : to_ ≠ 0) (h2 : dh ≠ 0) (h3 : uri.length ≠ 0) (h4 : amount ≠ 0)
    (h5 : now < dueDate) (h6 : riskScore ≤ 100) (h7 : n.documentHashToTokenId dh ≠ 0) :
    NFTState.mint n now to_ dh amount dueDate seller riskScore uri
      = Except.error Err.DocumentAlreadyFinanced := by
  unfold NFTState.mint
  rw [if_neg h1, if_neg h2, if_neg h3, if_neg h4, if_neg (by omega), if_neg (by omega),
    if_pos h7]

/-- A `fundLoan` whose every earlier check passes but whose fingerprint is
already mapped fails with `DocumentAlreadyFinanced`. -/
theorem fundLoan_doc_financed {cfg : Config} {now : Nat} {caller : Address} {s : PoolState}
    {p : FundLoanParams}
    (hver : cfg.isVerifiedBusiness caller = true)
    (hnonce : s.usedNonces p.nonce = false)
    (hsig : cfg.recover (msgOf cfg p) p.signature = cfg.oracle)
    (hfees : s.accumulatedFees ≤ s.balance)
    (hcap : s.totalActiveLoans + p.amount ≤ totalAssets s * s.maxUtilizationBps / 10000)
    (hliq : p.amount ≤ s.balance - s.accumulatedFees)
    (hdue : now < p.dueDate)
    (hpool : cfg.poolAddr ≠ 0) (hdh : p.documentHash ≠ 0)
    (huri : p.publicMetadataURI.length ≠ 0) (hamt : p.amount ≠ 0) (hrisk : p.riskScore ≤ 100)
    (hguard : s.nft.documentHashToTokenId p.documentHash ≠ 0) :
    fundLoan cfg now caller s p = Except.error Err.DocumentAlreadyFinanced := by
  simp only [totalAssets] at hcap
  simp only [fundLoan, totalAssets]
  rw [if_neg (by simp [hver]), if_neg (by simp [hnonce]), if_neg (by simp [hsig]),
    if_neg (Nat.not_lt.mpr hfees), if_neg (Nat.not_lt.mpr hcap), if_neg (Nat.not_lt.mpr hliq),
    if_neg (Nat.not_le.mpr hdue)]
  rw [mint_doc_financed hpool hdh huri hamt hdue hrisk hguard]

/-- C2: in every reachable pool state at most one loan is Active per
fingerprint; a `fundLoan` for a fingerprint that still maps to an un-burned
loan fails with `DocumentAlreadyFinanced` (all earlier checks passing); and
after `burnRepaidInvoice` clears the mapping, a new `fundLoan` against the
same fingerprint succeeds whenever all its other preconditions hold. -/
theorem double_financing_guard (cfg : Config) :
    (∀ s, Reachable cfg s → ∀ t1 t2,
      (s.loans t1).isActive = true → (s.loans t2).isActive = true →
      (s.loans t1).documentHash = (s.loans t2).documentHash → t1 = t2)
    ∧ (∀ now caller s p, cfg.isVerifiedBusiness caller = true →
        s.usedNonces p.nonce = false →
        cfg.recover (msgOf cfg p) p.signature = cfg.oracle →
        s.accumulatedFees ≤ s.balance →
        s.totalActiveLoans + p.amount ≤ totalAssets s * s.maxUtilizationBps / 10000 →
        p.amount ≤ s.balance - s.accumulatedFees →
        now < p.dueDate → cfg.poolAddr ≠ 0 → p.documentHash ≠ 0 →
        p.publicMetadataURI.length ≠ 0 → p.amount ≠ 0 → p.riskScore ≤ 100 →
        s.nft.documentHashToTokenId p.documentHash ≠ 0 →
        fundLoan cfg now caller s p = Except.error Err.DocumentAlreadyFinanced)
    ∧ (∀ s caller tokenId s1, Reachable cfg s →
        burnRepaidInvoice cfg caller s tokenId = Except.ok s1 →
        s1.nft.documentHashToTokenId ((s.nft.invoices tokenId).documentHash) = 0 ∧
        ∀ now caller2 p, cfg.isVerifiedBusiness caller2 = true →
          s1.usedNonces p.nonce = false →
          cfg.recover (msgOf cfg p) p.signature = cfg.oracle →
          s1.accumulatedFees ≤ s1.balance →
          s1.totalActiveLoans + p.amount ≤ totalAssets s1 * s1.maxUtilizationBps / 10000 →
          p.amount ≤ s1.balance - s1.accumulatedFees →
          now < p.dueDate → cfg.poolAddr ≠ 0 →
          p.documentHash = (s.nft.invoices tokenId).documentHash →
          p.publicMetadataURI.length ≠ 0 → p.amount ≠ 0 → p.riskScore ≤ 100 →
          ∃ t2 s2, fundLoan cfg now caller2 s1 p = Except.ok (t2, s2)) := by
  refine ⟨?_, ?_, ?_⟩
  · intro s hr t1 t2 h1 h2 hh
    have hI := Inv_of_Reachable hr
    have e1 := hI.act_map t1 h1
    have e2 := hI.act_map t2 h2
    rw [hh] at e1
    rw [e1] at e2
    exact e2
  · intro now caller s p hv hn hsig hfees hcap hliq hdue hpool hdh huri hamt hrisk hguard
    exact fundLoan_doc_financed hv hn hsig hfees hcap hliq hdue hpool hdh huri hamt
      hrisk hguard
  · intro s caller tokenId s1 hr hburn
    have hI := Inv_of_Reachable hr
    obtain ⟨_, hinact, hownb, hrep, hpost⟩ := burnRepaid_ok_elim hburn
    have hclear : s1.nft.documentHashToTokenId ((s.nft.invoices tokenId).documentHash) = 0 := by
      subst hpost
      simp
    refine ⟨hclear, ?_⟩
    intro now caller2 p hv hn hsig hfees hcap hliq hdue hpool hdh2 huri hamt hrisk
    have hI1 : Inv s1 := Inv_burnPost hI hburn
    have hguard : s1.nft.documentHashToTokenId p.documentHash = 0 := by
      rw [hdh2]
      exact hclear
    have hdh : p.documentHash ≠ 0 := by
      rw [hdh2]
      exact hI.own_hash tokenId hownb
    have hfree : (s1.loans (s1.nft.tokenIdCounter + 1)).isActive = false := by
      by_cases hact : (s1.loans (s1.nft.tokenIdCounter + 1)).isActive = true
      · have := hI1.act_le (s1.nft.tokenIdCounter + 1) hact
        omega
      · exact Bool.eq_false_iff.mpr fun e => hact e
    exact ⟨s1.nft.tokenIdCounter + 1, fundLoanPost cfg now s1 p,
      fundLoan_ok_intro hv hn hsig hfees hcap hliq hdue hpool hdh huri hamt hrisk
        hguard hfree⟩

/-- The concrete scenario's funded state is reachable from deployment. -/
theorem reachable_sS2 : Reachable cfgS sS2 :=
  Reachable.step (Reachable.step Reachable.init
    (show applyOp cfgS (Op.opDeposit 5 1000000) PoolState.init = Except.ok sS1 from rfl))
    (show applyOp cfgS (Op.opFundLoan 50 20 pS) sS1 = Except.ok sS2 from rfl)

/-- The concrete scenario's repaid state is reachable from deployment. -/
theorem reachable_sS4 : Reachable cfgS sS4 :=
  Reachable.step (Reachable.step reachable_sS2
    (show applyOp cfgS (Op.opDepositRepayment 10 416000) sS2 = Except.ok sS3 from rfl))
    (show applyOp cfgS (Op.opRepayLoan 10 1 16000) sS3 = Except.ok sS4 from rfl)

/-- The large repay-counterexample pool states are reachable from
deployment. -/
theorem reachable_sB4 : Reachable cfgS sB4 :=
  Reachable.step (Reachable.step (Reachable.step (Reachable.step Reachable.init
    (show applyOp cfgS (Op.opDeposit 5 10000000000000) PoolState.init
      = Except.ok sB1 from rfl))
    (show applyOp cfgS (Op.opFundLoan 50 20 pB) sB1 = Except.ok sB2 from rfl))
    (show applyOp cfgS (Op.opDepositRepayment 10 5000000000002) sB2
      = Except.ok sB3 from rfl))
    (show applyOp cfgS (Op.opRepayLoan 10 1 2) sB3 = Except.ok sB4 from rfl)

/-- The tiny withdrawal-counterexample pool states are reachable from
deployment. -/
theorem reachable_sD5 : Reachable cfgS sD5 :=
  Reachable.step (Reachable.step (Reachable.step (Reachable.step
    (Reachable.step Reachable.init
      (show applyOp cfgS (Op.opDeposit 5 2) PoolState.init = Except.ok sD1 from rfl))
    (show applyOp cfgS (Op.opFundLoan 50 20 pD) sD1 = Except.ok sD2 from rfl))
    (show applyOp cfgS (Op.opDepositRepayment 10 3) sD2 = Except.ok sD3 from rfl))
    (show applyOp cfgS (Op.opRepayLoan 10 1 2) sD3 = Except.ok sD4 from rfl))
    (show applyOp cfgS (Op.opWithdraw 5 9 5 3) sD4 = Except.ok sD5 from rfl)

/-- Witness for C2 at the concrete scenario: uniqueness of the active loan
for fingerprint 77 in the funded state, the `DocumentAlreadyFinanced`
rejection of a second funding with a fresh nonce before the burn, and a
successful re-funding of fingerprint 77 after the burn. -/
theorem double_financing_guard_witness :
    (1 : Nat) = 1 ∧
    fundLoan cfgS 50 20 sS2 { pS with nonce := 8 }
      = Except.error Err.DocumentAlreadyFinanced ∧
    ∃ t2 s2, fundLoan cfgS 50 20 sS5 { pS with nonce := 9 } = Except.ok (t2, s2) := by
  refine ⟨?_, ?_, ?_⟩
  · exact (double_financing_guard cfgS).1 sS2 reachable_sS2 1 1 rfl rfl rfl
  · exact (double_financing_guard cfgS).2.1 50 20 sS2 { pS with nonce := 8 } rfl rfl rfl
      (by decide) (by decide) (by decide) (by decide) (by decide) (by decide)
      (by decide) (by decide) (by decide) (by decide)
  · exact ((double_financing_guard cfgS).2.2 sS4 10 1 sS5 reachable_sS4 rfl).2
      50 20 { pS with nonce := 9 } rfl rfl rfl (by decide) (by decide) (by decide)
      (by decide) (by decide) rfl (by decide) (by decide) (by decide)

end EIBS
